import Mathlib

/-!
# NetNS manager — verification of the orchestration / restore / reconciliation core

Shallow embedding of the `netns-mgr` source:

* the SQLite entity store (`internal/db`, schema in the `migrate` function,
  `Repository.DeleteNamespace`) as pure record lists with the schema's
  `ON DELETE` foreign-key actions;
* the CLI / API orchestrator commands (`internal/cli`, `internal/api`) as
  functions over an abstract outcome environment (which external steps
  succeed) and a two-layer live/recorded resource state;
* the namespace manager's scoped-context operations
  (`internal/netns/namespace.go`) over an explicit thread-context state;
* `VethManager.Create` (`internal/netns/veth.go`) over an explicit live
  link world;
* the boot-time restore batch (`scripts` restore shell script, running
  under `set -e`) as a staged interpreter over a live kernel-state model
  with deterministic command semantics (a command fails exactly on the
  name-collision / missing-target conditions the `ip` tool reports).
-/

namespace NetNS

/-! ## Data model (internal/db/models.go, schema in the migrate function) -/

/-- Row of the `namespaces` table. -/
structure NamespaceRec where
  id : Nat
  name : String
  createdAt : Nat
  metadata : String
  deriving DecidableEq, Repr

/-- Row of the `veth_pairs` table.  Per the schema, `ns_id` is declared
`ON DELETE CASCADE` and `peer_ns_id` is declared `ON DELETE SET NULL`. -/
structure VethRec where
  id : Nat
  name : String
  peerName : String
  nsId : Option Nat
  peerNsId : Option Nat
  deriving DecidableEq, Repr

/-- Row of the `ip_addresses` table (`ns_id` is `ON DELETE CASCADE`). -/
structure AddrRec where
  id : Nat
  interfaceName : String
  nsId : Option Nat
  address : String
  deriving DecidableEq, Repr

/-- Row of the `routes` table (`ns_id` is `ON DELETE CASCADE`). -/
structure RouteRec where
  id : Nat
  nsId : Option Nat
  destination : String
  gateway : String
  interfaceName : String
  deriving DecidableEq, Repr

/-- Row of the `bridges` table (`ns_id` is `ON DELETE CASCADE`). -/
structure BridgeRec where
  id : Nat
  name : String
  nsId : Option Nat
  deriving DecidableEq, Repr

/-- Row of the `bridge_ports` table (`bridge_id` is `ON DELETE CASCADE`). -/
structure PortRec where
  id : Nat
  bridgeId : Nat
  interfaceName : String
  deriving DecidableEq, Repr

/-- Row of the `gre_tunnels` table (`ns_id` is `ON DELETE CASCADE`). -/
structure GreRec where
  id : Nat
  name : String
  localIP : String
  remoteIP : String
  greKey : Nat
  ttl : Nat
  nsId : Option Nat
  deriving DecidableEq, Repr

/-- The entity store: one list per table of the SQLite schema. -/
structure Database where
  namespaces : List NamespaceRec
  vethPairs : List VethRec
  ipAddresses : List AddrRec
  routes : List RouteRec
  bridges : List BridgeRec
  bridgePorts : List PortRec
  greTunnels : List GreRec
  deriving DecidableEq, Repr

/-! ## Entity store: DeleteNamespace with the schema's foreign-key actions

`Repository.DeleteNamespace` runs `DELETE FROM namespaces WHERE name = ?`
and reports an error when no row was affected.  The connection is opened
with `_foreign_keys=on`, so SQLite applies the referential actions of the
schema: `CASCADE` on `ip_addresses.ns_id`, `routes.ns_id`, `bridges.ns_id`,
`gre_tunnels.ns_id` and `veth_pairs.ns_id`; `SET NULL` on
`veth_pairs.peer_ns_id`; `CASCADE` on `bridge_ports.bridge_id` for bridges
removed by the first cascade. -/

/-- Does an optional namespace reference hit one of the deleted ids? -/
def refersTo (ids : List Nat) : Option Nat → Bool
  | none => false
  | some i => ids.contains i

/-- Ids of the `namespaces` rows matched by `DELETE ... WHERE name = ?`. -/
def victimIds (db : Database) (name : String) : List Nat :=
  (db.namespaces.filter (fun n => n.name == name)).map (·.id)

/-- `Repository.DeleteNamespace` with the schema's `ON DELETE` actions. -/
def deleteNamespace (db : Database) (name : String) : Except String Database :=
  let ids := victimIds db name
  if ids.isEmpty then
    .error "namespace not found"
  else
    let keptBridges := db.bridges.filter (fun b => !(refersTo ids b.nsId))
    let removedBridgeIds := (db.bridges.filter (fun b => refersTo ids b.nsId)).map (·.id)
    .ok
      { namespaces := db.namespaces.filter (fun n => !(n.name == name))
        vethPairs :=
          (db.vethPairs.filter (fun v => !(refersTo ids v.nsId))).map
            (fun v => if refersTo ids v.peerNsId then { v with peerNsId := none } else v)
        ipAddresses := db.ipAddresses.filter (fun a => !(refersTo ids a.nsId))
        routes := db.routes.filter (fun r => !(refersTo ids r.nsId))
        bridges := keptBridges
        bridgePorts := db.bridgePorts.filter (fun p => !(removedBridgeIds.contains p.bridgeId))
        greTunnels := db.greTunnels.filter (fun t => !(refersTo ids t.nsId)) }

/-- The §8 cascade scenario: "ns1" owns one Address and one Route and is the
primary end of VirtualLinkPair "v0"↔"v1" (v0 in "ns1", v1 in "ns2"). -/
def c1ExampleDb : Database where
  namespaces := [⟨1, "ns1", 0, ""⟩, ⟨2, "ns2", 0, ""⟩]
  vethPairs := [⟨1, "v0", "v1", some 1, some 2⟩]
  ipAddresses := [⟨1, "v0", some 1, "10.0.0.1/24"⟩]
  routes := [⟨1, some 1, "default", "10.0.0.254", ""⟩]
  bridges := []
  bridgePorts := []
  greTunnels := []

/-- A graph where the victim namespace is referenced only by the peer end
of a veth pair, so the pair survives with that end nulled. -/
def c1WitnessDb : Database where
  namespaces := [⟨1, "ns1", 0, ""⟩]
  vethPairs := [⟨1, "v0", "v1", none, some 1⟩]
  ipAddresses := []
  routes := []
  bridges := []
  bridgePorts := []
  greTunnels := []

/-- Entity store contents after deleting "ns1" from `c1WitnessDb`. -/
def c1WitnessAfter : Database where
  namespaces := []
  vethPairs := [⟨1, "v0", "v1", none, none⟩]
  ipAddresses := []
  routes := []
  bridges := []
  bridgePorts := []
  greTunnels := []

end NetNS

/-- C1 (counterexample): on the §8 scenario, deleting "ns1" does **not**
leave the VirtualLinkPair record surviving with its "ns1"-side reference
nulled: the schema declares `veth_pairs.ns_id ON DELETE CASCADE`, so the
whole record is deleted.  (The Address and Route records are cascaded away
as the claim states.) -/
theorem veth_primary_end_cascades_on_namespace_delete :
    NetNS.deleteNamespace NetNS.c1ExampleDb "ns1" =
      .ok { namespaces := [⟨2, "ns2", 0, ""⟩], vethPairs := [],
            ipAddresses := [], routes := [], bridges := [],
            bridgePorts := [], greTunnels := [] } ∧
    ¬ ∃ v ∈ (match NetNS.deleteNamespace NetNS.c1ExampleDb "ns1" with
             | .ok db => db.vethPairs
             | .error _ => []), v.name = "v0" ∧ v.nsId = none ∧ v.peerNsId = some 2 := by
  constructor
  · rfl
  · decide

/-- C1 (amended): deleting a Namespace record cascades deletion to every
Address, Route, Bridge, and Tunnel record referencing it, **and also to
every VirtualLinkPair record referencing it through its primary `ns_id`
end**; a VirtualLinkPair record referencing it only through its peer
`peer_ns_id` end survives with that reference set to null and its primary
reference unchanged. -/
theorem deleteNamespace_cascade_characterization (db : NetNS.Database) (name : String)
    (db' : NetNS.Database) (h : NetNS.deleteNamespace db name = .ok db') :
    (∀ a : NetNS.AddrRec, a ∈ db'.ipAddresses ↔
        a ∈ db.ipAddresses ∧ NetNS.refersTo (NetNS.victimIds db name) a.nsId = false) ∧
    (∀ r : NetNS.RouteRec, r ∈ db'.routes ↔
        r ∈ db.routes ∧ NetNS.refersTo (NetNS.victimIds db name) r.nsId = false) ∧
    (∀ b : NetNS.BridgeRec, b ∈ db'.bridges ↔
        b ∈ db.bridges ∧ NetNS.refersTo (NetNS.victimIds db name) b.nsId = false) ∧
    (∀ t : NetNS.GreRec, t ∈ db'.greTunnels ↔
        t ∈ db.greTunnels ∧ NetNS.refersTo (NetNS.victimIds db name) t.nsId = false) ∧
    (∀ w : NetNS.VethRec, w ∈ db'.vethPairs ↔
        ∃ v ∈ db.vethPairs, NetNS.refersTo (NetNS.victimIds db name) v.nsId = false ∧
          w = if NetNS.refersTo (NetNS.victimIds db name) v.peerNsId then
                { v with peerNsId := none } else v) := by
  simp only [NetNS.deleteNamespace] at h
  by_cases hids : (NetNS.victimIds db name).isEmpty = true
  · rw [if_pos hids] at h
    exact absurd h (by simp)
  · rw [if_neg hids] at h
    injection h with h
    subst h
    refine ⟨?_, ?_, ?_, ?_, ?_⟩
    · intro a
      simp [List.mem_filter, Bool.not_eq_true']
    · intro r
      simp [List.mem_filter, Bool.not_eq_true']
    · intro b
      simp [List.mem_filter, Bool.not_eq_true']
    · intro t
      simp [List.mem_filter, Bool.not_eq_true']
    · intro w
      simp only [List.mem_map, List.mem_filter, Bool.not_eq_true']
      constructor
      · rintro ⟨v, ⟨hv, hns⟩, rfl⟩
        exact ⟨v, hv, hns, rfl⟩
      · rintro ⟨v, hv, hns, rfl⟩
        exact ⟨v, ⟨hv, hns⟩, rfl⟩

/-- C1 (witness): instantiating the cascade characterization on
`c1WitnessDb` — the veth pair survives with its peer-end reference
nulled. -/
theorem deleteNamespace_cascade_characterization_witness :
    (⟨1, "v0", "v1", none, none⟩ : NetNS.VethRec) ∈ NetNS.c1WitnessAfter.vethPairs ↔
      ∃ v ∈ NetNS.c1WitnessDb.vethPairs,
        NetNS.refersTo (NetNS.victimIds NetNS.c1WitnessDb "ns1") v.nsId = false ∧
          (⟨1, "v0", "v1", none, none⟩ : NetNS.VethRec) =
            if NetNS.refersTo (NetNS.victimIds NetNS.c1WitnessDb "ns1") v.peerNsId then
              { v with peerNsId := none } else v :=
  (deleteNamespace_cascade_characterization NetNS.c1WitnessDb "ns1" NetNS.c1WitnessAfter
    (by rfl)).2.2.2.2 ⟨1, "v0", "v1", none, none⟩

namespace NetNS

/-! ## Orchestrator create commands (internal/cli, internal/api)

Each create command is embedded over an outcome environment saying which
external steps succeed, and a two-layer state: is the resource live in the
kernel, and is a record for it reachable by name in the store. -/

/-- Which external steps of a create command succeed. -/
structure CreateEnv where
  sysOk : Bool
  persistOk : Bool
  rollbackOk : Bool
  deriving DecidableEq, Repr

/-- Live/recorded state of one named resource. -/
structure ResourceState where
  live : Bool
  recorded : Bool
  deriving DecidableEq, Repr

/-- The resource is absent on both layers. -/
def absent : ResourceState := ⟨false, false⟩

/-- Result of one orchestrator command. -/
structure CmdOutcome where
  state : ResourceState
  success : Bool
  rollbackInvoked : Bool
  deriving DecidableEq, Repr

/-- `nsCreateCmd` (internal/cli/namespace.go): system create, then record;
on record failure invoke `namespaceManager.Delete` (result ignored) and
return the persistence error. -/
def nsCreateCmd (env : CreateEnv) (st : ResourceState) : CmdOutcome :=
  if !env.sysOk then ⟨st, false, false⟩
  else
    let st := { st with live := true }
    if env.persistOk then ⟨{ st with recorded := true }, true, false⟩
    else ⟨if env.rollbackOk then { st with live := false } else st, false, true⟩

/-- `vethCreateCmd` (internal/cli/veth.go): same two-phase shape with
`vethManager.Delete` as the compensating step. -/
def vethCreateCmd (env : CreateEnv) (st : ResourceState) : CmdOutcome :=
  if !env.sysOk then ⟨st, false, false⟩
  else
    let st := { st with live := true }
    if env.persistOk then ⟨{ st with recorded := true }, true, false⟩
    else ⟨if env.rollbackOk then { st with live := false } else st, false, true⟩

/-- `ipAddCmd` (internal/cli/ip.go): same two-phase shape with
`addressManager.Delete` as the compensating step. -/
def ipAddCmd (env : CreateEnv) (st : ResourceState) : CmdOutcome :=
  if !env.sysOk then ⟨st, false, false⟩
  else
    let st := { st with live := true }
    if env.persistOk then ⟨{ st with recorded := true }, true, false⟩
    else ⟨if env.rollbackOk then { st with live := false } else st, false, true⟩

/-- `routeAddCmd` (internal/cli/route.go): same two-phase shape with
`routeManager.Delete` as the compensating step. -/
def routeAddCmd (env : CreateEnv) (st : ResourceState) : CmdOutcome :=
  if !env.sysOk then ⟨st, false, false⟩
  else
    let st := { st with live := true }
    if env.persistOk then ⟨{ st with recorded := true }, true, false⟩
    else ⟨if env.rollbackOk then { st with live := false } else st, false, true⟩

/-- `bridgeCreateCmd` (internal/cli/route.go, bridge section): same
two-phase shape with `bridgeManager.Delete` as the compensating step. -/
def bridgeCreateCmd (env : CreateEnv) (st : ResourceState) : CmdOutcome :=
  if !env.sysOk then ⟨st, false, false⟩
  else
    let st := { st with live := true }
    if env.persistOk then ⟨{ st with recorded := true }, true, false⟩
    else ⟨if env.rollbackOk then { st with live := false } else st, false, true⟩

/-- `greCreateCmd` (gre CLI file): same two-phase shape with
`greManager.Delete` as the compensating step. -/
def greCreateCmd (env : CreateEnv) (st : ResourceState) : CmdOutcome :=
  if !env.sysOk then ⟨st, false, false⟩
  else
    let st := { st with live := true }
    if env.persistOk then ⟨{ st with recorded := true }, true, false⟩
    else ⟨if env.rollbackOk then { st with live := false } else st, false, true⟩

/-- Outcome environment of the bridge-port add handler. -/
structure PortCreateEnv where
  sysOk : Bool
  bridgeFound : Bool
  persistOk : Bool
  deriving DecidableEq, Repr

/-- `Server.addBridgePort` (API bridge-port handler; the CLI
`bridgeAddPortCmd` has the same shape): live `AddPort`, then — only when
`GetBridgeByName` finds the bridge record — `repository.AddBridgePort`
with its result discarded; the handler replies success regardless and
never rolls back. -/
def addBridgePort (env : PortCreateEnv) (st : ResourceState) : CmdOutcome :=
  if !env.sysOk then ⟨st, false, false⟩
  else
    let st := { st with live := true }
    if env.bridgeFound then
      ⟨if env.persistOk then { st with recorded := true } else st, true, false⟩
    else ⟨st, true, false⟩

/-- No live resource without a record reachable by its name. -/
def noOrphan (o : CmdOutcome) : Prop :=
  ¬ (o.state.live = true ∧ o.state.recorded = false)

end NetNS

/-- C2 (counterexample): for the bridge-port kind, a successful live step
followed by a persistence failure invokes no rollback and still reports
success, leaving a live resource with no persisted record. -/
theorem addBridgePort_persistence_failure_is_ignored :
    NetNS.addBridgePort ⟨true, true, false⟩ NetNS.absent =
      ⟨⟨true, false⟩, true, false⟩ := by decide

/-- Observable contract of a two-phase create command: success and a
record exactly when both steps succeed; rollback invoked exactly on a
live-step success with persistence failure; a live resource without a
record remains exactly when the compensating delete itself fails. -/
def twoPhaseSpec (cmd : NetNS.CreateEnv → NetNS.ResourceState → NetNS.CmdOutcome)
    (env : NetNS.CreateEnv) : Prop :=
  (cmd env NetNS.absent).success = (env.sysOk && env.persistOk) ∧
  (cmd env NetNS.absent).rollbackInvoked = (env.sysOk && !env.persistOk) ∧
  (cmd env NetNS.absent).state.recorded = (env.sysOk && env.persistOk) ∧
  ((cmd env NetNS.absent).state.live && !(cmd env NetNS.absent).state.recorded) =
    (env.sysOk && !env.persistOk && !env.rollbackOk)

/-- C2 (amended): for the namespace, virtual-link-pair, address, route,
bridge, and tunnel kinds, a live-step success followed by a persistence
failure invokes the kind's inverse adapter delete and the operation
returns an error, and a live resource without a record reachable by its
name remains only when that compensating delete itself fails; the
bridge-port add, by contrast, ignores persistence failures (no rollback,
success reply), so the guarantee excludes that kind. -/
theorem create_rollback_no_orphan (env : NetNS.CreateEnv) :
    twoPhaseSpec NetNS.nsCreateCmd env ∧
    twoPhaseSpec NetNS.vethCreateCmd env ∧
    twoPhaseSpec NetNS.ipAddCmd env ∧
    twoPhaseSpec NetNS.routeAddCmd env ∧
    twoPhaseSpec NetNS.bridgeCreateCmd env ∧
    twoPhaseSpec NetNS.greCreateCmd env := by
  obtain ⟨s, p, r⟩ := env
  cases s <;> cases p <;> cases r <;>
    simp [twoPhaseSpec, NetNS.nsCreateCmd, NetNS.vethCreateCmd, NetNS.ipAddCmd,
      NetNS.routeAddCmd, NetNS.bridgeCreateCmd, NetNS.greCreateCmd, NetNS.absent]

namespace NetNS

/-! ## Orchestrator delete commands (internal/cli) -/

/-- Which external steps of a delete command succeed. -/
structure DeleteEnv where
  sysOk : Bool
  dbOk : Bool
  deriving DecidableEq, Repr

/-- Result of one delete command. -/
structure DeleteOutcome where
  state : ResourceState
  success : Bool
  dbDeleteAttempted : Bool
  warned : Bool
  deriving DecidableEq, Repr

/-- `nsDeleteCmd` (internal/cli/namespace.go): live delete first (failure
aborts, record untouched); then `Repo.DeleteNamespace`, whose failure is
only warned about while the command still succeeds. -/
def nsDeleteCmd (env : DeleteEnv) (st : ResourceState) : DeleteOutcome :=
  if !env.sysOk then ⟨st, false, false, false⟩
  else
    let st := { st with live := false }
    if env.dbOk then ⟨{ st with recorded := false }, true, true, false⟩
    else ⟨st, true, true, true⟩

/-- `vethDeleteCmd` (internal/cli/veth.go): same shape via
`Repo.DeleteVethPair`. -/
def vethDeleteCmd (env : DeleteEnv) (st : ResourceState) : DeleteOutcome :=
  if !env.sysOk then ⟨st, false, false, false⟩
  else
    let st := { st with live := false }
    if env.dbOk then ⟨{ st with recorded := false }, true, true, false⟩
    else ⟨st, true, true, true⟩

/-- `bridgeDeleteCmd` (internal/cli/route.go, bridge section): same shape
via `Repo.DeleteBridge`. -/
def bridgeDeleteCmd (env : DeleteEnv) (st : ResourceState) : DeleteOutcome :=
  if !env.sysOk then ⟨st, false, false, false⟩
  else
    let st := { st with live := false }
    if env.dbOk then ⟨{ st with recorded := false }, true, true, false⟩
    else ⟨st, true, true, true⟩

/-- `greDeleteCmd` (gre CLI file): same shape via `Repo.DeleteGRETunnel`. -/
def greDeleteCmd (env : DeleteEnv) (st : ResourceState) : DeleteOutcome :=
  if !env.sysOk then ⟨st, false, false, false⟩
  else
    let st := { st with live := false }
    if env.dbOk then ⟨{ st with recorded := false }, true, true, false⟩
    else ⟨st, true, true, true⟩

/-- `ipDeleteCmd` (internal/cli/ip.go): live `addressManager.Delete` only —
the persisted record is never touched. -/
def ipDeleteCmd (env : DeleteEnv) (st : ResourceState) : DeleteOutcome :=
  if !env.sysOk then ⟨st, false, false, false⟩
  else ⟨{ st with live := false }, true, false, false⟩

/-- `routeDeleteCmd` (internal/cli/route.go): live `routeManager.Delete`
only — the persisted record is never touched. -/
def routeDeleteCmd (env : DeleteEnv) (st : ResourceState) : DeleteOutcome :=
  if !env.sysOk then ⟨st, false, false, false⟩
  else ⟨{ st with live := false }, true, false, false⟩

/-- The resource is live and recorded. -/
def liveAndRecorded : ResourceState := ⟨true, true⟩

end NetNS

/-- C3 (counterexample): the address kind's delete, after a successful
live removal, never attempts to remove the persisted record (it remains
recorded), contradicting "for every resource kind ... it then attempts to
remove the persisted record". -/
theorem ipDeleteCmd_never_touches_record :
    NetNS.ipDeleteCmd ⟨true, true⟩ NetNS.liveAndRecorded =
      ⟨⟨false, true⟩, true, false, false⟩ := by decide

/-- Observable contract of a delete command that removes the record with a
warn-only failure mode: the live removal decides success; the record
removal is attempted exactly when the live removal succeeded, its failure
is warned about, and the record survives exactly when it was present and
the record removal did not succeed. -/
def deleteWarnSpec (cmd : NetNS.DeleteEnv → NetNS.ResourceState → NetNS.DeleteOutcome)
    (env : NetNS.DeleteEnv) (st : NetNS.ResourceState) : Prop :=
  (cmd env st).success = env.sysOk ∧
  (cmd env st).dbDeleteAttempted = env.sysOk ∧
  (cmd env st).warned = (env.sysOk && !env.dbOk) ∧
  (cmd env st).state.live = (!env.sysOk && st.live) ∧
  (cmd env st).state.recorded = (!(env.sysOk && env.dbOk) && st.recorded)

/-- Observable contract of a delete command that never touches the
persisted record. -/
def deleteNoDbSpec (cmd : NetNS.DeleteEnv → NetNS.ResourceState → NetNS.DeleteOutcome)
    (env : NetNS.DeleteEnv) (st : NetNS.ResourceState) : Prop :=
  (cmd env st).success = env.sysOk ∧
  (cmd env st).dbDeleteAttempted = false ∧
  (cmd env st).warned = false ∧
  (cmd env st).state.live = (!env.sysOk && st.live) ∧
  (cmd env st).state.recorded = st.recorded

/-- C3 (amended): every kind's delete applies the live removal first and,
when it fails, returns an error without touching the record; for the
namespace, virtual-link-pair, bridge, and tunnel kinds a successful live
removal is followed by an attempt to delete the persisted record whose
failure is only warned about while the command still succeeds; the CLI
address and route deletes skip the persisted-record removal entirely
(still reporting success). -/
theorem delete_live_first_record_warned (env : NetNS.DeleteEnv) (st : NetNS.ResourceState) :
    deleteWarnSpec NetNS.nsDeleteCmd env st ∧
    deleteWarnSpec NetNS.vethDeleteCmd env st ∧
    deleteWarnSpec NetNS.bridgeDeleteCmd env st ∧
    deleteWarnSpec NetNS.greDeleteCmd env st ∧
    deleteNoDbSpec NetNS.ipDeleteCmd env st ∧
    deleteNoDbSpec NetNS.routeDeleteCmd env st := by
  obtain ⟨s, d⟩ := env
  cases s <;> cases d <;>
    simp [deleteWarnSpec, deleteNoDbSpec, NetNS.nsDeleteCmd, NetNS.vethDeleteCmd,
      NetNS.bridgeDeleteCmd, NetNS.greDeleteCmd, NetNS.ipDeleteCmd, NetNS.routeDeleteCmd]

namespace NetNS

/-! ## Reconciler (nsListCmd, internal/cli/namespace.go) -/

/-- One row of the namespace list report. -/
structure NsListEntry where
  name : String
  status : String
  createdAt : Option Nat
  deriving DecidableEq, Repr

/-- Row built for a live-enumerated namespace: `active` with the recorded
creation time when a store record of that name exists, `untracked` with no
time otherwise. -/
def nsListSysEntry (databaseNamespaces : List NamespaceRec) (n : String) : NsListEntry :=
  { name := n
    status := if databaseNamespaces.any (fun r => r.name == n) then "active" else "untracked"
    createdAt := (databaseNamespaces.find? (fun r => r.name == n)).map (·.createdAt) }

/-- Rows for store records seen nowhere live: `orphaned`, with their
creation times. -/
def nsListOrphans (systemNamespaces : List String)
    (databaseNamespaces : List NamespaceRec) : List NsListEntry :=
  (databaseNamespaces.filter (fun r => !(systemNamespaces.any (fun n => r.name == n)))).map
    (fun r => { name := r.name, status := "orphaned", createdAt := some r.createdAt })

/-- `nsListCmd`: live enumeration first, then the orphaned store rows. -/
def nsListReport (systemNamespaces : List String)
    (databaseNamespaces : List NamespaceRec) : List NsListEntry :=
  systemNamespaces.map (nsListSysEntry databaseNamespaces) ++
    nsListOrphans systemNamespaces databaseNamespaces

theorem any_name_beq (dbRecs : List NamespaceRec) (n : String) :
    (dbRecs.any (fun r => r.name == n) = true) ↔ n ∈ dbRecs.map (·.name) := by
  rw [List.any_eq_true]
  constructor
  · rintro ⟨r, hr, he⟩
    exact List.mem_map.2 ⟨r, hr, by simpa using he⟩
  · intro h
    obtain ⟨r, hr, rfl⟩ := List.mem_map.1 h
    exact ⟨r, hr, by simp⟩

theorem any_sys_beq (sys : List String) (r : NamespaceRec) :
    (sys.any (fun n => r.name == n) = true) ↔ r.name ∈ sys := by
  rw [List.any_eq_true]
  constructor
  · rintro ⟨m, hm, he⟩
    have : r.name = m := by simpa using he
    exact this ▸ hm
  · intro h
    exact ⟨r.name, h, by simp⟩

theorem nsListSysEntry_name (dbRecs : List NamespaceRec) (n : String) :
    (nsListSysEntry dbRecs n).name = n := rfl

theorem map_name_sysEntries (sys : List String) (dbRecs : List NamespaceRec) :
    ((sys.map (nsListSysEntry dbRecs)).map (·.name)) = sys := by
  rw [List.map_map]
  rw [show ((fun e : NsListEntry => e.name) ∘ nsListSysEntry dbRecs) = id from rfl]
  exact List.map_id _

theorem mem_orphans (sys : List String) (dbRecs : List NamespaceRec)
    (e : NsListEntry) :
    e ∈ nsListOrphans sys dbRecs ↔
      ∃ r ∈ dbRecs, r.name ∉ sys ∧
        e = { name := r.name, status := "orphaned", createdAt := some r.createdAt } := by
  rw [nsListOrphans]
  constructor
  · intro h
    obtain ⟨r, hr, rfl⟩ := List.mem_map.1 h
    rw [List.mem_filter] at hr
    refine ⟨r, hr.1, ?_, rfl⟩
    intro hc
    have := (any_sys_beq sys r).2 hc
    rw [this] at hr
    simp at hr
  · rintro ⟨r, hr, hns, rfl⟩
    refine List.mem_map.2 ⟨r, ?_, rfl⟩
    rw [List.mem_filter]
    refine ⟨hr, ?_⟩
    rw [Bool.not_eq_true']
    rw [← Bool.not_eq_true]
    exact fun hc => hns ((any_sys_beq sys r).1 hc)

end NetNS

namespace NetNS

theorem map_name_orphans (sys : List String) (dbRecs : List NamespaceRec) :
    (nsListOrphans sys dbRecs).map (·.name) =
      (dbRecs.filter (fun r => !(sys.any (fun n => r.name == n)))).map (·.name) := by
  rw [nsListOrphans, List.map_map]
  rfl

theorem orphan_names_subset (sys : List String) (dbRecs : List NamespaceRec) :
    ∀ n, n ∈ (nsListOrphans sys dbRecs).map (·.name) → n ∈ dbRecs.map (·.name) := by
  intro n hn
  rw [map_name_orphans] at hn
  obtain ⟨r, hr, rfl⟩ := List.mem_map.1 hn
  exact List.mem_map.2 ⟨r, (List.mem_filter.1 hr).1, rfl⟩

theorem orphan_names_not_sys (sys : List String) (dbRecs : List NamespaceRec) :
    ∀ n, n ∈ (nsListOrphans sys dbRecs).map (·.name) → n ∉ sys := by
  intro n hn
  rw [map_name_orphans] at hn
  obtain ⟨r, hr, rfl⟩ := List.mem_map.1 hn
  rw [List.mem_filter, Bool.not_eq_true', ← Bool.not_eq_true] at hr
  exact fun hc => hr.2 ((any_sys_beq sys r).2 hc)

end NetNS

/-- C7: over nodup live and persisted name sets, every name of the union
appears in the report exactly once, classified as `active` when present in
both, `untracked` when live-only, `orphaned` when persisted-only; the
classification is a total function of the two enumerations (it cannot
fail). -/
theorem nsList_classifies_each_name_once (sys : List String)
    (dbRecs : List NetNS.NamespaceRec)
    (hs : sys.Nodup) (hd : (dbRecs.map (·.name)).Nodup) :
    ((NetNS.nsListReport sys dbRecs).map (·.name)).Nodup ∧
    (∀ n : String, n ∈ (NetNS.nsListReport sys dbRecs).map (·.name) ↔
        (n ∈ sys ∨ n ∈ dbRecs.map (·.name))) ∧
    (∀ e ∈ NetNS.nsListReport sys dbRecs,
        (e.status = "active" ↔ (e.name ∈ sys ∧ e.name ∈ dbRecs.map (·.name))) ∧
        (e.status = "untracked" ↔ (e.name ∈ sys ∧ e.name ∉ dbRecs.map (·.name))) ∧
        (e.status = "orphaned" ↔ (e.name ∉ sys ∧ e.name ∈ dbRecs.map (·.name)))) := by
  refine ⟨?_, ?_, ?_⟩
  · rw [NetNS.nsListReport, List.map_append, NetNS.map_name_sysEntries,
      NetNS.map_name_orphans, List.nodup_append]
    refine ⟨hs, hd.sublist ((List.filter_sublist _).map _), ?_⟩
    intro a ha hb
    have := NetNS.orphan_names_not_sys sys dbRecs a
    rw [NetNS.map_name_orphans] at this
    exact this hb ha
  · intro n
    rw [NetNS.nsListReport, List.map_append, NetNS.map_name_sysEntries, List.mem_append]
    constructor
    · rintro (hn | hn)
      · exact Or.inl hn
      · exact Or.inr (NetNS.orphan_names_subset sys dbRecs n hn)
    · rintro (hn | hn)
      · exact Or.inl hn
      · by_cases hin : n ∈ sys
        · exact Or.inl hin
        · obtain ⟨r, hr, rfl⟩ := List.mem_map.1 hn
          refine Or.inr ?_
          rw [NetNS.map_name_orphans]
          refine List.mem_map.2 ⟨r, ?_, rfl⟩
          rw [List.mem_filter, Bool.not_eq_true', ← Bool.not_eq_true]
          exact ⟨hr, fun hc => hin ((NetNS.any_sys_beq sys r).1 hc)⟩
  · intro e he
    rw [NetNS.nsListReport, List.mem_append] at he
    rcases he with he | he
    · obtain ⟨n, hn, rfl⟩ := List.mem_map.1 he
      by_cases hdb : dbRecs.any (fun r => r.name == n) = true
      · have hst : (NetNS.nsListSysEntry dbRecs n).status = "active" := by
          simp [NetNS.nsListSysEntry, hdb]
        have hdm := (NetNS.any_name_beq dbRecs n).1 hdb
        simp only [NetNS.nsListSysEntry_name, hst]
        exact ⟨⟨fun _ => ⟨hn, hdm⟩, fun _ => by simp⟩,
          ⟨fun hc => absurd hc (by simp), fun hc => absurd hdm hc.2⟩,
          ⟨fun hc => absurd hc (by simp), fun hc => absurd hn hc.1⟩⟩
      · have hst : (NetNS.nsListSysEntry dbRecs n).status = "untracked" := by
          simp [NetNS.nsListSysEntry, hdb]
        have hdm : n ∉ dbRecs.map (·.name) := fun hc => hdb ((NetNS.any_name_beq dbRecs n).2 hc)
        simp only [NetNS.nsListSysEntry_name, hst]
        exact ⟨⟨fun hc => absurd hc (by simp), fun hc => absurd hc.2 hdm⟩,
          ⟨fun _ => ⟨hn, hdm⟩, fun _ => by simp⟩,
          ⟨fun hc => absurd hc (by simp), fun hc => absurd hn hc.1⟩⟩
    · obtain ⟨r, hr, hns, rfl⟩ := (NetNS.mem_orphans sys dbRecs e).1 he
      have hdm : r.name ∈ dbRecs.map (·.name) := List.mem_map.2 ⟨r, hr, rfl⟩
      exact ⟨⟨fun hc => absurd hc (by simp), fun hc => absurd hc.1 hns⟩,
        ⟨fun hc => absurd hc (by simp), fun hc => absurd hc.1 hns⟩,
        ⟨fun _ => ⟨hns, hdm⟩, fun _ => rfl⟩⟩

/-- C7 (witness): the §8 example — live set x, y against persisted set
y, z — pushed through the classification theorem. -/
theorem nsList_classifies_each_name_once_witness :
    ((NetNS.nsListReport ["x", "y"] [⟨1, "y", 3, ""⟩, ⟨2, "z", 4, ""⟩]).map (·.name)).Nodup ∧
    (∀ n : String,
        n ∈ (NetNS.nsListReport ["x", "y"] [⟨1, "y", 3, ""⟩, ⟨2, "z", 4, ""⟩]).map (·.name) ↔
        (n ∈ ["x", "y"] ∨
          n ∈ ([⟨1, "y", 3, ""⟩, ⟨2, "z", 4, ""⟩] : List NetNS.NamespaceRec).map (·.name))) ∧
    (∀ e ∈ NetNS.nsListReport ["x", "y"] [⟨1, "y", 3, ""⟩, ⟨2, "z", 4, ""⟩],
        (e.status = "active" ↔ (e.name ∈ ["x", "y"] ∧
          e.name ∈ ([⟨1, "y", 3, ""⟩, ⟨2, "z", 4, ""⟩] : List NetNS.NamespaceRec).map (·.name))) ∧
        (e.status = "untracked" ↔ (e.name ∈ ["x", "y"] ∧
          e.name ∉ ([⟨1, "y", 3, ""⟩, ⟨2, "z", 4, ""⟩] : List NetNS.NamespaceRec).map (·.name))) ∧
        (e.status = "orphaned" ↔ (e.name ∉ ["x", "y"] ∧
          e.name ∈ ([⟨1, "y", 3, ""⟩, ⟨2, "z", 4, ""⟩] : List NetNS.NamespaceRec).map (·.name)))) :=
  nsList_classifies_each_name_once ["x", "y"] [⟨1, "y", 3, ""⟩, ⟨2, "z", 4, ""⟩]
    (by decide) (by decide)

/-- C8 (counterexample): with live enumeration z and persisted record a,
the report is z (untracked) followed by a (orphaned) — live entries come
first, so the report is **not** ordered by name across all entries. -/
theorem nsList_report_not_ordered_by_name :
    NetNS.nsListReport ["z"] [⟨1, "a", 5, ""⟩] =
      [⟨"z", "untracked", none⟩, ⟨"a", "orphaned", some 5⟩] ∧
    ¬ List.Pairwise (fun a b : NetNS.NsListEntry => a.name ≤ b.name)
        (NetNS.nsListReport ["z"] [⟨1, "a", 5, ""⟩]) := by
  constructor
  · rfl
  · intro h
    rw [show NetNS.nsListReport ["z"] [⟨1, "a", 5, ""⟩] =
        [⟨"z", "untracked", none⟩, ⟨"a", "orphaned", some 5⟩] from rfl] at h
    rw [List.pairwise_cons] at h
    have hle := h.1 ⟨"a", "orphaned", some 5⟩ (by simp)
    rw [show (NetNS.NsListEntry.mk "z" "untracked" none).name = "z" from rfl,
      show (NetNS.NsListEntry.mk "a" "orphaned" (some 5)).name = "a" from rfl,
      String.le_iff_toList_le] at hle
    exact absurd hle (by decide)

/-- C8 (amended): the report lists the live-enumerated entries first
(`active` or `untracked`) and the persisted-only `orphaned` entries after
them — it is not globally ordered by name — and an entry carries the
persisted creation timestamp exactly when its status is `active` or
`orphaned` (never for `untracked`). -/
theorem nsList_structure_and_timestamps (sys : List String)
    (dbRecs : List NetNS.NamespaceRec) :
    (NetNS.nsListReport sys dbRecs =
        sys.map (NetNS.nsListSysEntry dbRecs) ++ NetNS.nsListOrphans sys dbRecs) ∧
    (∀ e ∈ sys.map (NetNS.nsListSysEntry dbRecs),
        e.status = "active" ∨ e.status = "untracked") ∧
    (∀ e ∈ NetNS.nsListOrphans sys dbRecs, e.status = "orphaned") ∧
    (∀ e ∈ NetNS.nsListReport sys dbRecs,
        e.createdAt.isSome = (e.status == "active" || e.status == "orphaned")) := by
  refine ⟨rfl, ?_, ?_, ?_⟩
  · intro e he
    obtain ⟨n, _, rfl⟩ := List.mem_map.1 he
    by_cases hdb : dbRecs.any (fun r => r.name == n) = true
    · exact Or.inl (by simp [NetNS.nsListSysEntry, hdb])
    · exact Or.inr (by simp [NetNS.nsListSysEntry, hdb])
  · intro e he
    obtain ⟨r, _, _, rfl⟩ := (NetNS.mem_orphans sys dbRecs e).1 he
    rfl
  · intro e he
    rw [NetNS.nsListReport, List.mem_append] at he
    rcases he with he | he
    · obtain ⟨n, _, rfl⟩ := List.mem_map.1 he
      by_cases hdb : dbRecs.any (fun r => r.name == n) = true
      · have hfind : (dbRecs.find? (fun r => r.name == n)).isSome = true := by
          rw [List.find?_isSome]
          obtain ⟨r, hr, he⟩ := List.any_eq_true.1 hdb
          exact ⟨r, hr, he⟩
        simp [NetNS.nsListSysEntry, hdb, hfind]
      · have hfind : (dbRecs.find? (fun r => r.name == n)) = none := by
          rw [List.find?_eq_none]
          intro r hr hc
          exact hdb (List.any_eq_true.2 ⟨r, hr, hc⟩)
        simp [NetNS.nsListSysEntry, hdb, hfind]
    · obtain ⟨r, _, _, rfl⟩ := (NetNS.mem_orphans sys dbRecs e).1 he
      rfl

namespace NetNS

/-! ## Scoped namespace switching (internal/netns/namespace.go)

The thread's namespace context is an explicit value; each fallible
external call gets a success flag in the environment.  A failing
`netns.Set` leaves the context unchanged; a successful `netns.New`
switches the thread into the freshly created namespace. -/

/-- The network-namespace context of the locked OS thread. -/
structure ThreadState where
  ctx : Nat
  deriving DecidableEq, Repr

/-- Which external calls of `Manager.RunInNamespace` succeed. -/
structure RunEnv where
  getOk : Bool
  handleOk : Bool
  setTargetOk : Bool
  fnOk : Bool
  setBackOk : Bool
  deriving DecidableEq, Repr

/-- `Manager.RunInNamespace`: capture the current context, resolve the
target handle, switch in, run the function, and switch back
unconditionally — also when the function returned an error. -/
def runInNamespace (env : RunEnv) (target : Nat) (st : ThreadState) :
    ThreadState × Bool :=
  if !env.getOk then (st, false)
  else
    let original := st.ctx
    if !env.handleOk then (st, false)
    else if !env.setTargetOk then (st, false)
    else
      let st := { st with ctx := target }
      if env.setBackOk then ({ st with ctx := original }, env.fnOk)
      else (st, false)

/-- Which external calls of `Manager.Create` succeed. -/
structure CreateNsEnv where
  getOk : Bool
  mkdirOk : Bool
  newOk : Bool
  fileOk : Bool
  mountOk : Bool
  setBackOk : Bool
  deriving DecidableEq, Repr

/-- `Manager.Create`: capture the current context; `netns.New` switches
the thread into the new namespace; every exit path taken after that
switch — file-creation failure, bind-mount failure, and success — calls
`netns.Set(originalNamespace)`. -/
def managerCreate (env : CreateNsEnv) (newCtx : Nat) (st : ThreadState) :
    ThreadState × Bool :=
  if !env.getOk then (st, false)
  else
    let original := st.ctx
    if !env.mkdirOk then (st, false)
    else if !env.newOk then (st, false)
    else
      let st := { st with ctx := newCtx }
      if !env.fileOk then
        (if env.setBackOk then { st with ctx := original } else st, false)
      else if !env.mountOk then
        (if env.setBackOk then { st with ctx := original } else st, false)
      else if env.setBackOk then ({ st with ctx := original }, true)
      else (st, false)

end NetNS

/-- C9: whenever the restoring `netns.Set(original)` call itself succeeds,
both `RunInNamespace` and `Manager.Create` leave the thread's namespace
context equal to the one captured at entry, on **every** exit path —
including the paths where the executed function or an intermediate step
returned an error. -/
theorem scoped_switch_restores_context (target newCtx : Nat) (st : NetNS.ThreadState)
    (renv : NetNS.RunEnv) (cenv : NetNS.CreateNsEnv)
    (hr : renv.setBackOk = true) (hc : cenv.setBackOk = true) :
    (NetNS.runInNamespace renv target st).1.ctx = st.ctx ∧
    (NetNS.managerCreate cenv newCtx st).1.ctx = st.ctx := by
  obtain ⟨g, h, s, f, b⟩ := renv
  obtain ⟨g', m', n', fl', mt', b'⟩ := cenv
  subst hr
  subst hc
  cases g <;> cases h <;> cases s <;> cases f <;>
    cases g' <;> cases m' <;> cases n' <;> cases fl' <;> cases mt' <;>
    simp [NetNS.runInNamespace, NetNS.managerCreate]

/-- C9 (witness): context restoration instantiated on the path where the
executed function fails and on a bind-mount failure path. -/
theorem scoped_switch_restores_context_witness :
    (NetNS.runInNamespace ⟨true, true, true, false, true⟩ 7 ⟨3⟩).1.ctx = (⟨3⟩ : NetNS.ThreadState).ctx ∧
    (NetNS.managerCreate ⟨true, true, true, true, false, true⟩ 9 ⟨3⟩).1.ctx = (⟨3⟩ : NetNS.ThreadState).ctx :=
  scoped_switch_restores_context 7 9 ⟨3⟩ ⟨true, true, true, false, true⟩
    ⟨true, true, true, true, false, true⟩ (by decide) (by decide)

namespace NetNS

/-! ## VethManager.Create (internal/netns/veth.go)

Live link world: the set of kernel namespaces and the set of
(location, interface) pairs, location `none` being the host.  Command
semantics are deterministic: `netlink.LinkAdd` of a veth pair fails
exactly when either name already exists in the host namespace;
`LinkSetNsFd` fails exactly when the target namespace is missing or
already holds an interface of that name; `netlink.LinkDel` of the pair
removes both ends wherever they are. -/

/-- Live kernel link state. -/
structure LinkWorld where
  netns : List String
  links : List (Option String × String)
  deriving DecidableEq, Repr

/-- `VethManager.moveToNamespace`: look the interface up in the host,
resolve the namespace handle, and move the link; `none` on failure. -/
def moveToNamespace (w : LinkWorld) (interfaceName namespaceName : String) :
    Option LinkWorld :=
  if !(w.links.contains (none, interfaceName)) then none
  else if !(w.netns.contains namespaceName) then none
  else if w.links.contains (some namespaceName, interfaceName) then none
  else
    some { w with links :=
            (w.links.filter (fun l => !(l == (none, interfaceName)))) ++
              [(some namespaceName, interfaceName)] }

/-- `netlink.LinkDel(vethPair)` during cleanup: the call is issued on the
**host** netlink socket, keyed by the first end's identity as recorded at
`LinkAdd` time, so it succeeds only while that first end is still in the
host namespace — and then destroys both ends of the pair, wherever the
peer sits.  Once the first end has been moved into a namespace the host
delete fails (the code discards the error) and removes nothing. -/
def delPair (w : LinkWorld) (interfaceName peerInterfaceName : String) : LinkWorld :=
  if w.links.contains (none, interfaceName) then
    { w with
      links := w.links.filter
        (fun l => !(l.2 == interfaceName) && !(l.2 == peerInterfaceName)) }
  else w

/-- Second half of `VethManager.Create`: move the peer end into its
namespace when one was requested; on failure delete the pair. -/
def vethMovePeer (w2 : LinkWorld) (interfaceName peerInterfaceName peerNamespaceName : String) :
    LinkWorld × Bool :=
  match (if peerNamespaceName == "" then some w2
         else moveToNamespace w2 peerInterfaceName peerNamespaceName) with
  | none => (delPair w2 interfaceName peerInterfaceName, false)
  | some w3 => (w3, true)

/-- Middle of `VethManager.Create`, after `netlink.LinkAdd` succeeded:
move the first end into its namespace when one was requested; on failure
delete the pair, otherwise continue with the peer end. -/
def vethMoveFirst (w1 : LinkWorld)
    (interfaceName peerInterfaceName namespaceName peerNamespaceName : String) :
    LinkWorld × Bool :=
  match (if namespaceName == "" then some w1
         else moveToNamespace w1 interfaceName namespaceName) with
  | none => (delPair w1 interfaceName peerInterfaceName, false)
  | some w2 => vethMovePeer w2 interfaceName peerInterfaceName peerNamespaceName

/-- `VethManager.Create`: create the pair in the host namespace, then move
each requested end into its namespace, deleting the just-created pair on
a failed move. -/
def vethManagerCreate (w : LinkWorld)
    (interfaceName peerInterfaceName namespaceName peerNamespaceName : String) :
    LinkWorld × Bool :=
  if w.links.contains (none, interfaceName) || w.links.contains (none, peerInterfaceName) then
    (w, false)
  else
    vethMoveFirst { w with links := w.links ++ [(none, interfaceName), (none, peerInterfaceName)] }
      interfaceName peerInterfaceName namespaceName peerNamespaceName

theorem pred_filter_self (w : LinkWorld) (n p : String)
    (hn : ∀ l ∈ w.links, l.2 ≠ n) (hp : ∀ l ∈ w.links, l.2 ≠ p) :
    w.links.filter (fun l => !(l.2 == n) && !(l.2 == p)) = w.links := by
  rw [List.filter_eq_self]
  intro l hl
  simp [hn l hl, hp l hl]

theorem delPair_of_contains (w : LinkWorld) (n p : String)
    (h : w.links.contains ((none : Option String), n) = true) :
    delPair w n p =
      { w with links := w.links.filter (fun l => !(l.2 == n) && !(l.2 == p)) } := by
  rw [delPair, if_pos h]

theorem delPair_of_not_contains (w : LinkWorld) (n p : String)
    (h : w.links.contains ((none : Option String), n) = false) :
    delPair w n p = w := by
  rw [delPair, if_neg (by rw [h]; simp)]

theorem delPair_after_add (w : LinkWorld) (n p : String)
    (hn : ∀ l ∈ w.links, l.2 ≠ n) (hp : ∀ l ∈ w.links, l.2 ≠ p) :
    delPair { w with links := w.links ++ [(none, n), (none, p)] } n p = w := by
  rw [delPair_of_contains _ n p (by simp)]
  obtain ⟨wns, wls⟩ := w
  simp only [List.filter_append]
  rw [LinkWorld.mk.injEq]
  refine ⟨rfl, ?_⟩
  rw [pred_filter_self ⟨wns, wls⟩ n p hn hp]
  simp

theorem moveToNamespace_shape (w1 : LinkWorld) (n ns : String) (w2 : LinkWorld)
    (hmv : moveToNamespace w1 n ns = some w2) :
    w2.netns = w1.netns ∧
    w2.links = (w1.links.filter (fun l => !(l == ((none : Option String), n)))) ++
      [(some ns, n)] := by
  rw [moveToNamespace] at hmv
  by_cases h1 : (!(w1.links.contains ((none : Option String), n))) = true
  · rw [if_pos h1] at hmv
    exact absurd hmv (by simp)
  · rw [if_neg h1] at hmv
    by_cases h2 : (!(w1.netns.contains ns)) = true
    · rw [if_pos h2] at hmv
      exact absurd hmv (by simp)
    · rw [if_neg h2] at hmv
      by_cases h3 : (w1.links.contains (some ns, n)) = true
      · rw [if_pos h3] at hmv
        exact absurd hmv (by simp)
      · rw [if_neg h3] at hmv
        injection hmv with hmv
        subst hmv
        exact ⟨rfl, rfl⟩

theorem delPair_noop_after_move (w1 : LinkWorld) (n p ns : String) (w2 : LinkWorld)
    (hmv : moveToNamespace w1 n ns = some w2) :
    delPair w2 n p = w2 := by
  obtain ⟨_, hlinks⟩ := moveToNamespace_shape w1 n ns w2 hmv
  refine delPair_of_not_contains w2 n p ?_
  rw [hlinks]
  simp [List.mem_filter]

theorem vethMovePeer_error_delPair (w2 : LinkWorld) (n p pns : String)
    (herr : (vethMovePeer w2 n p pns).2 = false) :
    vethMovePeer w2 n p pns = (delPair w2 n p, false) := by
  rw [vethMovePeer] at herr ⊢
  cases hmv : (if pns == "" then some w2 else moveToNamespace w2 p pns) with
  | none => rfl
  | some w3 =>
      rw [hmv] at herr
      simp at herr

theorem vethMoveFirst_error_cases (w : LinkWorld) (n p ns pns : String)
    (hnp : n ≠ p)
    (hn : ∀ l ∈ w.links, l.2 ≠ n) (hp : ∀ l ∈ w.links, l.2 ≠ p)
    (herr : (vethMoveFirst { w with links := w.links ++ [(none, n), (none, p)] }
        n p ns pns).2 = false) :
    vethMoveFirst { w with links := w.links ++ [(none, n), (none, p)] } n p ns pns =
      (w, false) ∨
    ((vethMoveFirst { w with links := w.links ++ [(none, n), (none, p)] }
        n p ns pns).1.links.contains (some ns, n) = true ∧
     (vethMoveFirst { w with links := w.links ++ [(none, n), (none, p)] }
        n p ns pns).1.links.contains ((none : Option String), p) = true ∧
     (vethMoveFirst { w with links := w.links ++ [(none, n), (none, p)] }
        n p ns pns).1.netns = w.netns) := by
  rw [vethMoveFirst] at herr ⊢
  cases hmv : (if ns == "" then
      some { w with links := w.links ++ [(none, n), (none, p)] }
    else moveToNamespace { w with links := w.links ++ [(none, n), (none, p)] } n ns) with
  | none =>
      left
      rw [delPair_after_add w n p hn hp]
  | some w2 =>
      rw [hmv] at herr
      have hdel := vethMovePeer_error_delPair w2 n p pns herr
      show vethMovePeer w2 n p pns = (w, false) ∨
        ((vethMovePeer w2 n p pns).1.links.contains (some ns, n) = true ∧
         (vethMovePeer w2 n p pns).1.links.contains ((none : Option String), p) = true ∧
         (vethMovePeer w2 n p pns).1.netns = w.netns)
      by_cases hns : (ns == "") = true
      · rw [if_pos hns] at hmv
        injection hmv with hmv
        left
        rw [hdel, ← hmv, delPair_after_add w n p hn hp]
      · rw [if_neg hns] at hmv
        obtain ⟨hnets, hlinks⟩ := moveToNamespace_shape _ n ns w2 hmv
        have hnoop : delPair w2 n p = w2 := delPair_noop_after_move _ n p ns w2 hmv
        right
        rw [hdel, hnoop]
        refine ⟨?_, ?_, ?_⟩
        · show w2.links.contains (some ns, n) = true
          rw [hlinks]
          simp
        · show w2.links.contains ((none : Option String), p) = true
          rw [hlinks]
          simp [List.mem_filter, Ne.symm hnp]
        · show w2.netns = w.netns
          rw [hnets]

end NetNS

/-- C10 (counterexample): creating v0↔v1 with v0 bound for the live
namespace ns1 and v1 for the missing namespace ns2 errors after v0 was
already moved: the host-issued cleanup delete targets v0's stale host
identity and removes nothing, so a half-configured pair survives — v0
live in ns1 and v1 live in the host — refuting "a failed create never
leaves a half-configured pair live". -/
theorem vethManagerCreate_half_pair_survives :
    NetNS.vethManagerCreate ⟨["ns1"], []⟩ "v0" "v1" "ns1" "ns2" =
      (⟨["ns1"], [(none, "v1"), (some "ns1", "v0")]⟩, false) ∧
    ¬ ((NetNS.vethManagerCreate ⟨["ns1"], []⟩ "v0" "v1" "ns1" "ns2").1 =
        (⟨["ns1"], []⟩ : NetNS.LinkWorld)) ∧
    (NetNS.vethManagerCreate ⟨["ns1"], []⟩ "v0" "v1" "ns1" "ns2").1.links.contains
      (some "ns1", "v0") = true ∧
    (NetNS.vethManagerCreate ⟨["ns1"], []⟩ "v0" "v1" "ns1" "ns2").1.links.contains
      ((none : Option String), "v1") = true :=
  ⟨rfl, by decide, by decide, by decide⟩

/-- C10 (amended): for fresh, distinct interface names, a failed
`VethManager.Create` either leaves the live link world exactly as it was
— which happens on every error path where the first end is still in the
host namespace (pair-creation failure, first-end-move failure, or
peer-move failure when no first-end move was requested), because the
cleanup delete then reaches the pair — or, when the first end had
already been moved into its namespace and the peer move failed, the
host-issued cleanup delete misses the pair and a half-configured pair
survives: the first end live in its namespace and the peer live in the
host (namespaces unchanged). -/
theorem vethManagerCreate_cleanup_characterization (w : NetNS.LinkWorld)
    (n p ns pns : String) (hnp : n ≠ p)
    (hn : ∀ l ∈ w.links, l.2 ≠ n) (hp : ∀ l ∈ w.links, l.2 ≠ p)
    (herr : (NetNS.vethManagerCreate w n p ns pns).2 = false) :
    NetNS.vethManagerCreate w n p ns pns = (w, false) ∨
    ((NetNS.vethManagerCreate w n p ns pns).1.links.contains (some ns, n) = true ∧
     (NetNS.vethManagerCreate w n p ns pns).1.links.contains
       ((none : Option String), p) = true ∧
     (NetNS.vethManagerCreate w n p ns pns).1.netns = w.netns) := by
  rw [NetNS.vethManagerCreate] at herr ⊢
  by_cases h0 : (w.links.contains ((none : Option String), n) ||
      w.links.contains (none, p)) = true
  · rw [if_pos h0]
    exact Or.inl rfl
  · rw [if_neg h0] at herr ⊢
    exact NetNS.vethMoveFirst_error_cases w n p ns pns hnp hn hp herr

/-- C10 (witness): the characterization applied on the peer-move-failure
path — the half-configured-pair disjunct is realized. -/
theorem vethManagerCreate_cleanup_characterization_witness :
    NetNS.vethManagerCreate ⟨["ns1"], []⟩ "v0" "v1" "ns1" "ns2" =
      ((⟨["ns1"], []⟩ : NetNS.LinkWorld), false) ∨
    ((NetNS.vethManagerCreate ⟨["ns1"], []⟩ "v0" "v1" "ns1" "ns2").1.links.contains
        (some "ns1", "v0") = true ∧
     (NetNS.vethManagerCreate ⟨["ns1"], []⟩ "v0" "v1" "ns1" "ns2").1.links.contains
        ((none : Option String), "v1") = true ∧
     (NetNS.vethManagerCreate ⟨["ns1"], []⟩ "v0" "v1" "ns1" "ns2").1.netns =
        (⟨["ns1"], []⟩ : NetNS.LinkWorld).netns) := by
  exact vethManagerCreate_cleanup_characterization ⟨["ns1"], []⟩ "v0" "v1" "ns1" "ns2"
    (by decide) (by decide) (by decide) (by decide)

namespace NetNS

/-! ## Restore batch (the boot-time restore shell script)

The script runs under `set -e`.  Some commands are guarded
(`... || true`, `... || log_warn`), so their failure is tolerated; the
namespace-creation, veth-creation and bridge-creation commands are
unguarded, so their failure terminates the whole script.  Command
semantics are deterministic: a command fails exactly on the
name-collision / missing-target conditions reported by the `ip` tool. -/

/-- Live kernel state seen by the restore script: namespaces, links
(location `none` is the host), addresses, routes and bridge-port
assignments. -/
structure SysState where
  netns : List String
  links : List (Option String × String)
  addrs : List (Option String × String × String)
  routes : List (Option String × String)
  masters : List (Option String × String × String)
  deriving DecidableEq, Repr

/-- The empty live state. -/
def sys0 : SysState := ⟨[], [], [], [], []⟩

/-- The seven restore stages, in script order. -/
inductive Stage
  | namespaces
  | bridges
  | veths
  | addresses
  | routes
  | bridgePorts
  | tunnels
  deriving DecidableEq, Repr

/-- Position of a stage in the script's fixed order. -/
def stageIdx : Stage → Nat
  | .namespaces => 0
  | .bridges => 1
  | .veths => 2
  | .addresses => 3
  | .routes => 4
  | .bridgePorts => 5
  | .tunnels => 6

/-- What the script logged for one record. -/
inductive REventKind
  | skipped
  | created
  | warned
  deriving DecidableEq, Repr

/-- One log line of the restore run. -/
structure REvent where
  stage : Stage
  kind : REventKind
  name : String
  deriving DecidableEq, Repr

/-- Result of processing one record: new live state, log events, and
whether the script continues (`false` = an unguarded command failed and
`set -e` terminated the script). -/
structure StepRes where
  st : SysState
  evs : List REvent
  cont : Bool
  deriving DecidableEq, Repr

/-- `create_namespace`: skip when the namespace is already live, else
`ip netns add` (the name is free, so it succeeds) and bring `lo` up. -/
def create_namespace (st : SysState) (n : String) : StepRes :=
  if st.netns.contains n then ⟨st, [⟨.namespaces, .skipped, n⟩], true⟩
  else ⟨{ st with netns := st.netns ++ [n] }, [⟨.namespaces, .created, n⟩], true⟩

/-- `ip link set <iface> netns <n>` during veth restore: `none` when no
move was requested; fails when the namespace is missing, the name is
taken there, or the interface is not in the host. -/
def moveIface (st : SysState) (iface : String) : Option String → Option SysState
  | none => some st
  | some n =>
      if !(st.netns.contains n) then none
      else if st.links.contains (some n, iface) then none
      else if !(st.links.contains (none, iface)) then none
      else
        some { st with links :=
                (st.links.filter (fun l => !(l == ((none : Option String), iface)))) ++
                  [(some n, iface)] }

/-- `create_veth`: the existence check consults only the **host**
namespace (`ip link show <name>`); `ip link add ... peer ...` and the two
`ip link set ... netns` moves are unguarded, so their failure aborts. -/
def create_veth (st : SysState) (vethName peerName : String)
    (nsName peerNsName : Option String) : StepRes :=
  if st.links.contains (none, vethName) then ⟨st, [⟨.veths, .skipped, vethName⟩], true⟩
  else if st.links.contains (none, peerName) then ⟨st, [], false⟩
  else
    let st1 : SysState :=
      { st with links := st.links ++ [(none, vethName), (none, peerName)] }
    match moveIface st1 vethName nsName with
    | none => ⟨st1, [], false⟩
    | some st2 =>
        match moveIface st2 peerName peerNsName with
        | none => ⟨st2, [], false⟩
        | some st3 => ⟨st3, [⟨.veths, .created, vethName⟩], true⟩

/-- `add_ip_address`: namespace-aware existence check, then a guarded add
(`... 2>/dev/null || true`) that takes effect when the namespace is live
and the interface is present there; success is logged either way. -/
def add_ip_address (st : SysState) (interfaceName ipAddress : String)
    (nsName : Option String) : StepRes :=
  if st.addrs.contains (nsName, interfaceName, ipAddress) then
    ⟨st, [⟨.addresses, .skipped, ipAddress⟩], true⟩
  else
    let ok := (match nsName with
               | none => true
               | some n => st.netns.contains n) && st.links.contains (nsName, interfaceName)
    ⟨if ok then { st with addrs := st.addrs ++ [(nsName, interfaceName, ipAddress)] } else st,
      [⟨.addresses, .created, ipAddress⟩], true⟩

/-- `add_route`: no existence check; the guarded `ip route add` either
takes effect or is downgraded to a warning, and success is logged
regardless. -/
def add_route (st : SysState) (destination : String) (nsName : Option String) : StepRes :=
  let nsOk := match nsName with
              | none => true
              | some n => st.netns.contains n
  if nsOk && !(st.routes.contains (nsName, destination)) then
    ⟨{ st with routes := st.routes ++ [(nsName, destination)] },
      [⟨.routes, .created, destination⟩], true⟩
  else
    ⟨st, [⟨.routes, .warned, destination⟩, ⟨.routes, .created, destination⟩], true⟩

/-- `create_bridge`: namespace-aware existence check; in a namespace the
`ip netns exec <ns> ip link add` is unguarded, so a missing namespace
aborts; in the host the add follows a passed check and succeeds. -/
def create_bridge (st : SysState) (bridgeName : String) (nsName : Option String) : StepRes :=
  if st.links.contains (nsName, bridgeName) then
    ⟨st, [⟨.bridges, .skipped, bridgeName⟩], true⟩
  else
    match nsName with
    | some n =>
        if st.netns.contains n then
          ⟨{ st with links := st.links ++ [(some n, bridgeName)] },
            [⟨.bridges, .created, bridgeName⟩], true⟩
        else ⟨st, [], false⟩
    | none =>
        ⟨{ st with links := st.links ++ [(none, bridgeName)] },
          [⟨.bridges, .created, bridgeName⟩], true⟩

/-- `add_bridge_port`: guarded (`|| true`); the master assignment takes
effect when namespace, interface and bridge are all live, and success is
logged regardless. -/
def add_bridge_port (st : SysState) (bridgeName interfaceName : String)
    (nsName : Option String) : StepRes :=
  let ok := (match nsName with
             | none => true
             | some n => st.netns.contains n) &&
    st.links.contains (nsName, interfaceName) && st.links.contains (nsName, bridgeName)
  ⟨if ok && !(st.masters.contains (nsName, interfaceName, bridgeName)) then
      { st with masters := st.masters ++ [(nsName, interfaceName, bridgeName)] }
    else st,
    [⟨.bridgePorts, .created, interfaceName⟩], true⟩

/-- `create_gre_tunnel`: namespace-aware existence check, then a guarded
add that takes effect when the namespace is live; success logged either
way. -/
def create_gre_tunnel (st : SysState) (tunnelName : String) (nsName : Option String) :
    StepRes :=
  if st.links.contains (nsName, tunnelName) then
    ⟨st, [⟨.tunnels, .skipped, tunnelName⟩], true⟩
  else
    let nsOk := match nsName with
                | none => true
                | some n => st.netns.contains n
    ⟨if nsOk then { st with links := st.links ++ [(nsName, tunnelName)] } else st,
      [⟨.tunnels, .created, tunnelName⟩], true⟩

/-- `SELECT name FROM namespaces WHERE id = ?` during restore: an empty
result leaves the namespace name empty, which the script treats as the
host. -/
def resolveNs (db : Database) : Option Nat → Option String
  | none => none
  | some i => (db.namespaces.find? (fun r => r.id == i)).map (·.name)

/-- Bridge-port restore: look the owning bridge up by id; when the bridge
row is gone the guarded `ip link set ... master` is a no-op and success
is still logged. -/
def restore_bridge_port (db : Database) (st : SysState) (p : PortRec) : StepRes :=
  match db.bridges.find? (fun b => b.id == p.bridgeId) with
  | none => ⟨st, [⟨.bridgePorts, .created, p.interfaceName⟩], true⟩
  | some b => add_bridge_port st b.name p.interfaceName (resolveNs db b.nsId)

/-- Run one stage over its records, stopping at the first aborting
record (`set -e`). -/
def runStage {α : Type} (f : SysState → α → StepRes) (st : SysState) :
    List α → SysState × List REvent × Bool
  | [] => (st, [], true)
  | r :: rs =>
      let res := f st r
      if res.cont then
        let rest := runStage f res.st rs
        (rest.1, res.evs ++ rest.2.1, rest.2.2)
      else (res.st, res.evs, false)

/-- Chain one more stage after an earlier result; a terminated script runs
nothing further. -/
def chain (prev : SysState × List REvent × Bool)
    (f : SysState → SysState × List REvent × Bool) : SysState × List REvent × Bool :=
  if prev.2.2 then
    let nxt := f prev.1
    (nxt.1, prev.2.1 ++ nxt.2.1, nxt.2.2)
  else prev

/-- Stage 1: restore every `namespaces` row. -/
def nsStage (db : Database) (s : SysState) : SysState × List REvent × Bool :=
  runStage (fun s r => create_namespace s r.name) s db.namespaces

/-- Stage 2: restore every `bridges` row. -/
def bridgeStage (db : Database) (s : SysState) : SysState × List REvent × Bool :=
  runStage (fun s b => create_bridge s b.name (resolveNs db b.nsId)) s db.bridges

/-- Stage 3: restore every `veth_pairs` row. -/
def vethStage (db : Database) (s : SysState) : SysState × List REvent × Bool :=
  runStage (fun s v =>
    create_veth s v.name v.peerName (resolveNs db v.nsId) (resolveNs db v.peerNsId))
    s db.vethPairs

/-- Stage 4: restore every `ip_addresses` row. -/
def addrStage (db : Database) (s : SysState) : SysState × List REvent × Bool :=
  runStage (fun s a => add_ip_address s a.interfaceName a.address (resolveNs db a.nsId))
    s db.ipAddresses

/-- Stage 5: restore every `routes` row. -/
def routeStage (db : Database) (s : SysState) : SysState × List REvent × Bool :=
  runStage (fun s r => add_route s r.destination (resolveNs db r.nsId)) s db.routes

/-- Stage 6: restore every `bridge_ports` row. -/
def portStage (db : Database) (s : SysState) : SysState × List REvent × Bool :=
  runStage (fun s p => restore_bridge_port db s p) s db.bridgePorts

/-- Stage 7: restore every `gre_tunnels` row. -/
def tunnelStage (db : Database) (s : SysState) : SysState × List REvent × Bool :=
  runStage (fun s t => create_gre_tunnel s t.name (resolveNs db t.nsId)) s db.greTunnels

/-- `restore_all`: the seven stages in the script's fixed order —
namespaces, bridges, veth pairs, addresses, routes, bridge ports, GRE
tunnels. -/
def restore_all (db : Database) (st : SysState) : SysState × List REvent × Bool :=
  chain (chain (chain (chain (chain (chain
    (nsStage db st) (bridgeStage db)) (vethStage db)) (addrStage db)) (routeStage db))
    (portStage db)) (tunnelStage db)

end NetNS

namespace NetNS

/-- A graph whose veth record's peer name collides with a restored bridge:
`ip link add v0 type veth peer name br0` fails, and the failure is fatal
under `set -e`. -/
def c4Db : Database :=
  ⟨[], [⟨1, "v0", "br0", none, none⟩], [⟨1, "eth0", none, "10.0.0.1/24"⟩], [],
   [⟨1, "br0", none⟩], [], []⟩

/-- A graph with one namespace and a veth pair whose primary end lives in
it — the configuration on which a second restore run fails. -/
def c5Db : Database :=
  ⟨[⟨1, "ns1", 0, ""⟩], [⟨1, "v0", "v1", some 1, none⟩], [], [], [], [], []⟩

end NetNS

/-- C4 (counterexample): restoring `c4Db` from an empty live state aborts
at the veth record (its unguarded `ip link add` fails on the peer-name
collision with the bridge restored in stage 2), and the address record of
the later stage is never processed — the per-record failure **does**
abort the remaining batch. -/
theorem restore_abort_on_veth_failure :
    (NetNS.restore_all NetNS.c4Db NetNS.sys0).2.2 = false ∧
    (NetNS.restore_all NetNS.c4Db NetNS.sys0).2.1 =
      [⟨NetNS.Stage.bridges, NetNS.REventKind.created, "br0"⟩] := ⟨rfl, rfl⟩

/-- C4 (amended): failures of the guarded restore commands — address,
route, bridge-port, and tunnel records — are logged and never terminate
the batch; but the script runs under `set -e` with unguarded
namespace-creation, veth-creation and bridge-creation commands, so a
failure there (for example a veth peer-name collision, or a bridge whose
namespace is missing) aborts the whole remaining batch. -/
theorem restore_guarded_stages_never_abort (st : NetNS.SysState)
    (interfaceName ipAddress destination bridgeName tunnelName : String)
    (nsName : Option String) (db : NetNS.Database) (p : NetNS.PortRec) :
    (NetNS.add_ip_address st interfaceName ipAddress nsName).cont = true ∧
    (NetNS.add_route st destination nsName).cont = true ∧
    (NetNS.add_bridge_port st bridgeName interfaceName nsName).cont = true ∧
    (NetNS.restore_bridge_port db st p).cont = true ∧
    (NetNS.create_gre_tunnel st tunnelName nsName).cont = true := by
  refine ⟨?_, ?_, rfl, ?_, ?_⟩
  · rw [NetNS.add_ip_address.eq_def]
    split <;> rfl
  · rw [NetNS.add_route.eq_def]
    split <;> (dsimp only; split <;> rfl)
  · rw [NetNS.restore_bridge_port]
    split
    · rfl
    · rfl
  · rw [NetNS.create_gre_tunnel.eq_def]
    split <;> rfl

/-- C5 (counterexample): the first restore of `c5Db` completes (creating
"ns1" and moving v0 into it), but the second run against the unchanged
graph is **not** skip-only: the veth existence check looks only in the
host namespace, misses v0 (now inside "ns1"), re-runs `ip link add`,
which fails on the still-present host peer v1 and aborts the batch with
an error after the single namespace skip. -/
theorem restore_second_run_not_skip_only :
    (NetNS.restore_all NetNS.c5Db NetNS.sys0).2.2 = true ∧
    (NetNS.restore_all NetNS.c5Db (NetNS.restore_all NetNS.c5Db NetNS.sys0).1).2.2 = false ∧
    (NetNS.restore_all NetNS.c5Db (NetNS.restore_all NetNS.c5Db NetNS.sys0).1).2.1 =
      [⟨NetNS.Stage.namespaces, NetNS.REventKind.skipped, "ns1"⟩] := ⟨rfl, rfl, rfl⟩

/-- C5 (amended): before creating a namespace, bridge, address, or tunnel
the engine checks live existence (in the right namespace) and skips with
a log message, leaving the state untouched; the veth check does the same
but consults only the **host** namespace, so it skips exactly the pairs
whose primary end is still in the host — a pair whose end was moved into
a namespace is not recognized and the second run can error instead of
skipping. -/
theorem restore_existing_resources_skipped (st : NetNS.SysState)
    (n bridgeName vethName peerName interfaceName ipAddress tunnelName : String)
    (nsName peerNsName : Option String) :
    (st.netns.contains n = true →
      NetNS.create_namespace st n =
        ⟨st, [⟨NetNS.Stage.namespaces, NetNS.REventKind.skipped, n⟩], true⟩) ∧
    (st.links.contains (nsName, bridgeName) = true →
      NetNS.create_bridge st bridgeName nsName =
        ⟨st, [⟨NetNS.Stage.bridges, NetNS.REventKind.skipped, bridgeName⟩], true⟩) ∧
    (st.links.contains ((none : Option String), vethName) = true →
      NetNS.create_veth st vethName peerName nsName peerNsName =
        ⟨st, [⟨NetNS.Stage.veths, NetNS.REventKind.skipped, vethName⟩], true⟩) ∧
    (st.addrs.contains (nsName, interfaceName, ipAddress) = true →
      NetNS.add_ip_address st interfaceName ipAddress nsName =
        ⟨st, [⟨NetNS.Stage.addresses, NetNS.REventKind.skipped, ipAddress⟩], true⟩) ∧
    (st.links.contains (nsName, tunnelName) = true →
      NetNS.create_gre_tunnel st tunnelName nsName =
        ⟨st, [⟨NetNS.Stage.tunnels, NetNS.REventKind.skipped, tunnelName⟩], true⟩) := by
  refine ⟨?_, ?_, ?_, ?_, ?_⟩
  · intro h
    rw [NetNS.create_namespace, if_pos h]
  · intro h
    rw [NetNS.create_bridge.eq_def, if_pos h]
  · intro h
    rw [NetNS.create_veth, if_pos h]
  · intro h
    rw [NetNS.add_ip_address.eq_def, if_pos h]
  · intro h
    rw [NetNS.create_gre_tunnel.eq_def, if_pos h]

/-- C5 (witness): the skip behavior instantiated on a live state holding
one of everything. -/
theorem restore_existing_resources_skipped_witness :
    (NetNS.create_namespace ⟨["ns1"], [(none, "v0")], [(none, "v0", "10.0.0.1/24")], [], []⟩
        "ns1" =
      ⟨⟨["ns1"], [(none, "v0")], [(none, "v0", "10.0.0.1/24")], [], []⟩,
        [⟨NetNS.Stage.namespaces, NetNS.REventKind.skipped, "ns1"⟩], true⟩) ∧
    (NetNS.create_veth ⟨["ns1"], [(none, "v0")], [(none, "v0", "10.0.0.1/24")], [], []⟩
        "v0" "v1" none none =
      ⟨⟨["ns1"], [(none, "v0")], [(none, "v0", "10.0.0.1/24")], [], []⟩,
        [⟨NetNS.Stage.veths, NetNS.REventKind.skipped, "v0"⟩], true⟩) ∧
    (NetNS.add_ip_address ⟨["ns1"], [(none, "v0")], [(none, "v0", "10.0.0.1/24")], [], []⟩
        "v0" "10.0.0.1/24" none =
      ⟨⟨["ns1"], [(none, "v0")], [(none, "v0", "10.0.0.1/24")], [], []⟩,
        [⟨NetNS.Stage.addresses, NetNS.REventKind.skipped, "10.0.0.1/24"⟩], true⟩) := by
  refine ⟨?_, ?_, ?_⟩
  · exact (restore_existing_resources_skipped _ "ns1" "" "" "" "" "" "" none none).1 (by decide)
  · exact (restore_existing_resources_skipped _ "" "" "v0" "v1" "" "" "" none none).2.2.1
      (by decide)
  · exact (restore_existing_resources_skipped _ "" "" "" "" "v0" "10.0.0.1/24" "" none
      none).2.2.2.1 (by decide)

namespace NetNS

/-! ### Stage-order infrastructure for the restore batch -/

theorem sorted_const_map (l : List REvent) (k : Nat)
    (h : ∀ e ∈ l, stageIdx e.stage = k) :
    (l.map (fun e => stageIdx e.stage)).Sorted (· ≤ ·) := by
  rw [List.Sorted, List.pairwise_map]
  refine List.pairwise_of_forall_mem_list ?_
  intro a ha b hb
  rw [h a ha, h b hb]

theorem runStage_stage_eq {α : Type} (f : SysState → α → StepRes) (k : Stage)
    (hf : ∀ s r, ∀ e ∈ (f s r).evs, e.stage = k) :
    ∀ (rs : List α) (st : SysState), ∀ e ∈ (runStage f st rs).2.1, e.stage = k := by
  intro rs
  induction rs with
  | nil =>
      intro st e he
      simp [runStage] at he
  | cons r rs ih =>
      intro st e he
      rw [runStage] at he
      dsimp only at he
      by_cases hc : (f st r).cont = true
      · rw [if_pos hc] at he
        rcases List.mem_append.1 he with h | h
        · exact hf st r e h
        · exact ih _ e h
      · rw [if_neg hc] at he
        exact hf st r e he

theorem runStage_complete {α : Type} (f : SysState → α → StepRes)
    (P : α → REvent → Prop)
    (hf : ∀ s r, (f s r).cont = true → ∃ e ∈ (f s r).evs, P r e) :
    ∀ (rs : List α) (st : SysState), (runStage f st rs).2.2 = true →
      ∀ r ∈ rs, ∃ e ∈ (runStage f st rs).2.1, P r e := by
  intro rs
  induction rs with
  | nil =>
      intro st _ r hr
      simp at hr
  | cons r rs ih =>
      intro st hcont r' hr'
      rw [runStage] at hcont ⊢
      dsimp only at hcont ⊢
      by_cases hc : (f st r).cont = true
      · rw [if_pos hc] at hcont ⊢
        rcases List.mem_cons.1 hr' with hr' | hr'
        · subst hr'
          obtain ⟨e, he, hp⟩ := hf st r' hc
          exact ⟨e, List.mem_append.2 (Or.inl he), hp⟩
        · obtain ⟨e, he, hp⟩ := ih _ hcont r' hr'
          exact ⟨e, List.mem_append.2 (Or.inr he), hp⟩
      · rw [if_neg hc] at hcont
        simp at hcont

theorem chain_cont (p : SysState × List REvent × Bool)
    (f : SysState → SysState × List REvent × Bool)
    (h : (chain p f).2.2 = true) : p.2.2 = true ∧ (f p.1).2.2 = true := by
  rw [chain] at h
  by_cases hp : p.2.2 = true
  · rw [if_pos hp] at h
    exact ⟨hp, h⟩
  · rw [if_neg hp] at h
    exact absurd h hp

theorem chain_mem_prev (p : SysState × List REvent × Bool)
    (f : SysState → SysState × List REvent × Bool) (e : REvent)
    (he : e ∈ p.2.1) : e ∈ (chain p f).2.1 := by
  rw [chain]
  by_cases hp : p.2.2 = true
  · rw [if_pos hp]
    exact List.mem_append.2 (Or.inl he)
  · rw [if_neg hp]
    exact he

theorem chain_mem_next (p : SysState × List REvent × Bool)
    (f : SysState → SysState × List REvent × Bool) (e : REvent)
    (hp : p.2.2 = true) (he : e ∈ (f p.1).2.1) : e ∈ (chain p f).2.1 := by
  rw [chain, if_pos hp]
  exact List.mem_append.2 (Or.inr he)

theorem chain_sorted (p : SysState × List REvent × Bool)
    (f : SysState → SysState × List REvent × Bool) (k m : Nat)
    (hps : (p.2.1.map (fun e => stageIdx e.stage)).Sorted (· ≤ ·))
    (hpb : ∀ e ∈ p.2.1, stageIdx e.stage ≤ k)
    (hfs : ∀ s, ((f s).2.1.map (fun e => stageIdx e.stage)).Sorted (· ≤ ·))
    (hfb : ∀ s, ∀ e ∈ (f s).2.1, k ≤ stageIdx e.stage ∧ stageIdx e.stage ≤ m)
    (hkm : k ≤ m) :
    (((chain p f).2.1.map (fun e => stageIdx e.stage)).Sorted (· ≤ ·)) ∧
    (∀ e ∈ (chain p f).2.1, stageIdx e.stage ≤ m) := by
  rw [chain]
  by_cases hp : p.2.2 = true
  · rw [if_pos hp]
    dsimp only
    constructor
    · rw [List.map_append, List.Sorted, List.pairwise_append]
      refine ⟨hps, hfs _, ?_⟩
      intro x hx y hy
      obtain ⟨e, he, rfl⟩ := List.mem_map.1 hx
      obtain ⟨e', he', rfl⟩ := List.mem_map.1 hy
      exact le_trans (hpb e he) ((hfb _ e' he').1)
    · intro e he
      rcases List.mem_append.1 he with h | h
      · exact le_trans (hpb e h) hkm
      · exact (hfb _ e h).2
  · rw [if_neg hp]
    exact ⟨hps, fun e he => le_trans (hpb e he) hkm⟩

end NetNS

namespace NetNS

theorem create_namespace_events (s : SysState) (n : String) :
    (∀ e ∈ (create_namespace s n).evs, e.stage = Stage.namespaces) ∧
    ((create_namespace s n).cont = true →
      ∃ e ∈ (create_namespace s n).evs, e.stage = Stage.namespaces ∧ e.name = n) := by
  rw [create_namespace]
  split
  · exact ⟨fun e he => by simp at he; rw [he],
      fun _ => ⟨⟨Stage.namespaces, REventKind.skipped, n⟩, by simp, rfl, rfl⟩⟩
  · exact ⟨fun e he => by simp at he; rw [he],
      fun _ => ⟨⟨Stage.namespaces, REventKind.created, n⟩, by simp, rfl, rfl⟩⟩

theorem create_bridge_events (s : SysState) (b : String) (nsO : Option String) :
    (∀ e ∈ (create_bridge s b nsO).evs, e.stage = Stage.bridges) ∧
    ((create_bridge s b nsO).cont = true →
      ∃ e ∈ (create_bridge s b nsO).evs, e.stage = Stage.bridges ∧ e.name = b) := by
  rw [create_bridge.eq_def]
  split
  · exact ⟨fun e he => by simp at he; rw [he],
      fun _ => ⟨⟨Stage.bridges, REventKind.skipped, b⟩, by simp, rfl, rfl⟩⟩
  · split
    · split
      · exact ⟨fun e he => by simp at he; rw [he],
          fun _ => ⟨⟨Stage.bridges, REventKind.created, b⟩, by simp, rfl, rfl⟩⟩
      · exact ⟨fun e he => by simp at he, fun hc => by simp at hc⟩
    · exact ⟨fun e he => by simp at he; rw [he],
        fun _ => ⟨⟨Stage.bridges, REventKind.created, b⟩, by simp, rfl, rfl⟩⟩

theorem create_veth_events (s : SysState) (v p : String) (nsO pO : Option String) :
    (∀ e ∈ (create_veth s v p nsO pO).evs, e.stage = Stage.veths) ∧
    ((create_veth s v p nsO pO).cont = true →
      ∃ e ∈ (create_veth s v p nsO pO).evs, e.stage = Stage.veths ∧ e.name = v) := by
  rw [create_veth]
  split
  · exact ⟨fun e he => by simp at he; rw [he],
      fun _ => ⟨⟨Stage.veths, REventKind.skipped, v⟩, by simp, rfl, rfl⟩⟩
  · split
    · exact ⟨fun e he => by simp at he, fun hc => by simp at hc⟩
    · dsimp only
      split
      · exact ⟨fun e he => by simp at he, fun hc => by simp at hc⟩
      · split
        · exact ⟨fun e he => by simp at he, fun hc => by simp at hc⟩
        · exact ⟨fun e he => by simp at he; rw [he],
            fun _ => ⟨⟨Stage.veths, REventKind.created, v⟩, by simp, rfl, rfl⟩⟩

theorem add_ip_address_events (s : SysState) (i a : String) (nsO : Option String) :
    (∀ e ∈ (add_ip_address s i a nsO).evs, e.stage = Stage.addresses) ∧
    ((add_ip_address s i a nsO).cont = true →
      ∃ e ∈ (add_ip_address s i a nsO).evs, e.stage = Stage.addresses ∧ e.name = a) := by
  rw [add_ip_address.eq_def]
  split
  · exact ⟨fun e he => by simp at he; rw [he],
      fun _ => ⟨⟨Stage.addresses, REventKind.skipped, a⟩, by simp, rfl, rfl⟩⟩
  · exact ⟨fun e he => by simp at he; rw [he],
      fun _ => ⟨⟨Stage.addresses, REventKind.created, a⟩, by simp, rfl, rfl⟩⟩

theorem add_route_events (s : SysState) (d : String) (nsO : Option String) :
    (∀ e ∈ (add_route s d nsO).evs, e.stage = Stage.routes) ∧
    ((add_route s d nsO).cont = true →
      ∃ e ∈ (add_route s d nsO).evs, e.stage = Stage.routes ∧ e.name = d) := by
  rw [add_route.eq_def]
  dsimp only
  split
  · exact ⟨fun e he => by simp at he; rw [he],
      fun _ => ⟨⟨Stage.routes, REventKind.created, d⟩, by simp, rfl, rfl⟩⟩
  · refine ⟨fun e he => ?_, fun _ => ⟨⟨Stage.routes, REventKind.warned, d⟩, by simp, rfl, rfl⟩⟩
    simp at he
    rcases he with he | he <;> rw [he]

theorem restore_bridge_port_events (db : Database) (s : SysState) (p : PortRec) :
    (∀ e ∈ (restore_bridge_port db s p).evs, e.stage = Stage.bridgePorts) ∧
    ((restore_bridge_port db s p).cont = true →
      ∃ e ∈ (restore_bridge_port db s p).evs,
        e.stage = Stage.bridgePorts ∧ e.name = p.interfaceName) := by
  rw [restore_bridge_port.eq_def]
  split
  · exact ⟨fun e he => by simp at he; rw [he],
      fun _ => ⟨⟨Stage.bridgePorts, REventKind.created, p.interfaceName⟩, by simp, rfl, rfl⟩⟩
  · rw [add_bridge_port.eq_def]
    exact ⟨fun e he => by simp at he; rw [he],
      fun _ => ⟨⟨Stage.bridgePorts, REventKind.created, p.interfaceName⟩, by simp, rfl, rfl⟩⟩

theorem create_gre_tunnel_events (s : SysState) (t : String) (nsO : Option String) :
    (∀ e ∈ (create_gre_tunnel s t nsO).evs, e.stage = Stage.tunnels) ∧
    ((create_gre_tunnel s t nsO).cont = true →
      ∃ e ∈ (create_gre_tunnel s t nsO).evs, e.stage = Stage.tunnels ∧ e.name = t) := by
  rw [create_gre_tunnel.eq_def]
  split
  · exact ⟨fun e he => by simp at he; rw [he],
      fun _ => ⟨⟨Stage.tunnels, REventKind.skipped, t⟩, by simp, rfl, rfl⟩⟩
  · exact ⟨fun e he => by simp at he; rw [he],
      fun _ => ⟨⟨Stage.tunnels, REventKind.created, t⟩, by simp, rfl, rfl⟩⟩

end NetNS

namespace NetNS

theorem nsStage_stage (db : Database) :
    ∀ s, ∀ e ∈ (nsStage db s).2.1, e.stage = Stage.namespaces := by
  intro s
  unfold nsStage
  exact runStage_stage_eq _ _ (fun s r => (create_namespace_events s r.name).1) db.namespaces s

theorem bridgeStage_stage (db : Database) :
    ∀ s, ∀ e ∈ (bridgeStage db s).2.1, e.stage = Stage.bridges := by
  intro s
  unfold bridgeStage
  exact runStage_stage_eq _ _ (fun s b => (create_bridge_events s b.name (resolveNs db b.nsId)).1)
    db.bridges s

theorem vethStage_stage (db : Database) :
    ∀ s, ∀ e ∈ (vethStage db s).2.1, e.stage = Stage.veths := by
  intro s
  unfold vethStage
  exact runStage_stage_eq _ _
    (fun s v => (create_veth_events s v.name v.peerName
      (resolveNs db v.nsId) (resolveNs db v.peerNsId)).1) db.vethPairs s

theorem addrStage_stage (db : Database) :
    ∀ s, ∀ e ∈ (addrStage db s).2.1, e.stage = Stage.addresses := by
  intro s
  unfold addrStage
  exact runStage_stage_eq _ _
    (fun s a => (add_ip_address_events s a.interfaceName a.address (resolveNs db a.nsId)).1)
    db.ipAddresses s

theorem routeStage_stage (db : Database) :
    ∀ s, ∀ e ∈ (routeStage db s).2.1, e.stage = Stage.routes := by
  intro s
  unfold routeStage
  exact runStage_stage_eq _ _ (fun s r => (add_route_events s r.destination (resolveNs db r.nsId)).1)
    db.routes s

theorem portStage_stage (db : Database) :
    ∀ s, ∀ e ∈ (portStage db s).2.1, e.stage = Stage.bridgePorts := by
  intro s
  unfold portStage
  exact runStage_stage_eq _ _ (fun s p => (restore_bridge_port_events db s p).1) db.bridgePorts s

theorem tunnelStage_stage (db : Database) :
    ∀ s, ∀ e ∈ (tunnelStage db s).2.1, e.stage = Stage.tunnels := by
  intro s
  unfold tunnelStage
  exact runStage_stage_eq _ _ (fun s t => (create_gre_tunnel_events s t.name (resolveNs db t.nsId)).1)
    db.greTunnels s

theorem nsStage_complete (db : Database) :
    ∀ s, (nsStage db s).2.2 = true → ∀ r ∈ db.namespaces,
      ∃ e ∈ (nsStage db s).2.1, e.stage = Stage.namespaces ∧ e.name = r.name := by
  intro s
  unfold nsStage
  exact runStage_complete _ (fun r e => e.stage = Stage.namespaces ∧ e.name = r.name)
    (fun s r hc => (create_namespace_events s r.name).2 hc) db.namespaces s

theorem bridgeStage_complete (db : Database) :
    ∀ s, (bridgeStage db s).2.2 = true → ∀ b ∈ db.bridges,
      ∃ e ∈ (bridgeStage db s).2.1, e.stage = Stage.bridges ∧ e.name = b.name := by
  intro s
  unfold bridgeStage
  exact runStage_complete _ (fun b e => e.stage = Stage.bridges ∧ e.name = b.name)
    (fun s b hc => (create_bridge_events s b.name (resolveNs db b.nsId)).2 hc) db.bridges s

theorem vethStage_complete (db : Database) :
    ∀ s, (vethStage db s).2.2 = true → ∀ v ∈ db.vethPairs,
      ∃ e ∈ (vethStage db s).2.1, e.stage = Stage.veths ∧ e.name = v.name := by
  intro s
  unfold vethStage
  exact runStage_complete _ (fun v e => e.stage = Stage.veths ∧ e.name = v.name)
    (fun s v hc => (create_veth_events s v.name v.peerName
      (resolveNs db v.nsId) (resolveNs db v.peerNsId)).2 hc) db.vethPairs s

theorem addrStage_complete (db : Database) :
    ∀ s, (addrStage db s).2.2 = true → ∀ a ∈ db.ipAddresses,
      ∃ e ∈ (addrStage db s).2.1, e.stage = Stage.addresses ∧ e.name = a.address := by
  intro s
  unfold addrStage
  exact runStage_complete _ (fun a e => e.stage = Stage.addresses ∧ e.name = a.address)
    (fun s a hc => (add_ip_address_events s a.interfaceName a.address (resolveNs db a.nsId)).2 hc)
    db.ipAddresses s

theorem routeStage_complete (db : Database) :
    ∀ s, (routeStage db s).2.2 = true → ∀ r ∈ db.routes,
      ∃ e ∈ (routeStage db s).2.1, e.stage = Stage.routes ∧ e.name = r.destination := by
  intro s
  unfold routeStage
  exact runStage_complete _ (fun r e => e.stage = Stage.routes ∧ e.name = r.destination)
    (fun s r hc => (add_route_events s r.destination (resolveNs db r.nsId)).2 hc) db.routes s

theorem portStage_complete (db : Database) :
    ∀ s, (portStage db s).2.2 = true → ∀ p ∈ db.bridgePorts,
      ∃ e ∈ (portStage db s).2.1,
        e.stage = Stage.bridgePorts ∧ e.name = p.interfaceName := by
  intro s
  unfold portStage
  exact runStage_complete _ (fun p e => e.stage = Stage.bridgePorts ∧ e.name = p.interfaceName)
    (fun s p hc => (restore_bridge_port_events db s p).2 hc) db.bridgePorts s

theorem tunnelStage_complete (db : Database) :
    ∀ s, (tunnelStage db s).2.2 = true → ∀ t ∈ db.greTunnels,
      ∃ e ∈ (tunnelStage db s).2.1, e.stage = Stage.tunnels ∧ e.name = t.name := by
  intro s
  unfold tunnelStage
  exact runStage_complete _ (fun t e => e.stage = Stage.tunnels ∧ e.name = t.name)
    (fun s t hc => (create_gre_tunnel_events s t.name (resolveNs db t.nsId)).2 hc)
    db.greTunnels s

end NetNS

/-- C6: the restore batch replays records in the fixed stage order
Namespaces → Bridges → VirtualLinkPairs → Addresses → Routes →
BridgePorts → Tunnels: the log's stage indices are monotone (every event
of an earlier stage precedes every event of a later stage), and a
completed run emits an event of the right stage for every persisted
record of every table. -/
theorem restore_fixed_stage_order (db : NetNS.Database) (st : NetNS.SysState) :
    (((NetNS.restore_all db st).2.1.map (fun e => NetNS.stageIdx e.stage)).Sorted (· ≤ ·)) ∧
    ((NetNS.restore_all db st).2.2 = true →
      (∀ r ∈ db.namespaces, ∃ e ∈ (NetNS.restore_all db st).2.1,
          e.stage = NetNS.Stage.namespaces ∧ e.name = r.name) ∧
      (∀ b ∈ db.bridges, ∃ e ∈ (NetNS.restore_all db st).2.1,
          e.stage = NetNS.Stage.bridges ∧ e.name = b.name) ∧
      (∀ v ∈ db.vethPairs, ∃ e ∈ (NetNS.restore_all db st).2.1,
          e.stage = NetNS.Stage.veths ∧ e.name = v.name) ∧
      (∀ a ∈ db.ipAddresses, ∃ e ∈ (NetNS.restore_all db st).2.1,
          e.stage = NetNS.Stage.addresses ∧ e.name = a.address) ∧
      (∀ r ∈ db.routes, ∃ e ∈ (NetNS.restore_all db st).2.1,
          e.stage = NetNS.Stage.routes ∧ e.name = r.destination) ∧
      (∀ p ∈ db.bridgePorts, ∃ e ∈ (NetNS.restore_all db st).2.1,
          e.stage = NetNS.Stage.bridgePorts ∧ e.name = p.interfaceName) ∧
      (∀ t ∈ db.greTunnels, ∃ e ∈ (NetNS.restore_all db st).2.1,
          e.stage = NetNS.Stage.tunnels ∧ e.name = t.name)) := by
  have h2 := NetNS.chain_sorted (NetNS.nsStage db st) (NetNS.bridgeStage db) 0 1
    (NetNS.sorted_const_map _ 0 (fun e he => by rw [NetNS.nsStage_stage db st e he]; rfl))
    (fun e he => le_of_eq (by rw [NetNS.nsStage_stage db st e he]; rfl))
    (fun s => NetNS.sorted_const_map _ 1 (fun e he => by rw [NetNS.bridgeStage_stage db s e he]; rfl))
    (fun s e he => by rw [NetNS.bridgeStage_stage db s e he]; exact ⟨by decide, by decide⟩)
    (by decide)
  have h3 := NetNS.chain_sorted _ (NetNS.vethStage db) 1 2 h2.1 h2.2
    (fun s => NetNS.sorted_const_map _ 2 (fun e he => by rw [NetNS.vethStage_stage db s e he]; rfl))
    (fun s e he => by rw [NetNS.vethStage_stage db s e he]; exact ⟨by decide, by decide⟩)
    (by decide)
  have h4 := NetNS.chain_sorted _ (NetNS.addrStage db) 2 3 h3.1 h3.2
    (fun s => NetNS.sorted_const_map _ 3 (fun e he => by rw [NetNS.addrStage_stage db s e he]; rfl))
    (fun s e he => by rw [NetNS.addrStage_stage db s e he]; exact ⟨by decide, by decide⟩)
    (by decide)
  have h5 := NetNS.chain_sorted _ (NetNS.routeStage db) 3 4 h4.1 h4.2
    (fun s => NetNS.sorted_const_map _ 4 (fun e he => by rw [NetNS.routeStage_stage db s e he]; rfl))
    (fun s e he => by rw [NetNS.routeStage_stage db s e he]; exact ⟨by decide, by decide⟩)
    (by decide)
  have h6 := NetNS.chain_sorted _ (NetNS.portStage db) 4 5 h5.1 h5.2
    (fun s => NetNS.sorted_const_map _ 5 (fun e he => by rw [NetNS.portStage_stage db s e he]; rfl))
    (fun s e he => by rw [NetNS.portStage_stage db s e he]; exact ⟨by decide, by decide⟩)
    (by decide)
  have h7 := NetNS.chain_sorted _ (NetNS.tunnelStage db) 5 6 h6.1 h6.2
    (fun s => NetNS.sorted_const_map _ 6 (fun e he => by rw [NetNS.tunnelStage_stage db s e he]; rfl))
    (fun s e he => by rw [NetNS.tunnelStage_stage db s e he]; exact ⟨by decide, by decide⟩)
    (by decide)
  rw [NetNS.restore_all]
  refine ⟨h7.1, ?_⟩
  intro hcont
  obtain ⟨hc6, hg7⟩ := NetNS.chain_cont _ _ hcont
  obtain ⟨hc5, hg6⟩ := NetNS.chain_cont _ _ hc6
  obtain ⟨hc4, hg5⟩ := NetNS.chain_cont _ _ hc5
  obtain ⟨hc3, hg4⟩ := NetNS.chain_cont _ _ hc4
  obtain ⟨hc2, hg3⟩ := NetNS.chain_cont _ _ hc3
  obtain ⟨hc1, hg2⟩ := NetNS.chain_cont _ _ hc2
  refine ⟨?_, ?_, ?_, ?_, ?_, ?_, ?_⟩
  · intro r hr
    obtain ⟨e, he, hp⟩ := NetNS.nsStage_complete db st hc1 r hr
    exact ⟨e, NetNS.chain_mem_prev _ _ e (NetNS.chain_mem_prev _ _ e
      (NetNS.chain_mem_prev _ _ e (NetNS.chain_mem_prev _ _ e
        (NetNS.chain_mem_prev _ _ e (NetNS.chain_mem_prev _ _ e he))))), hp⟩
  · intro b hb
    obtain ⟨e, he, hp⟩ := NetNS.bridgeStage_complete db _ hg2 b hb
    exact ⟨e, NetNS.chain_mem_prev _ _ e (NetNS.chain_mem_prev _ _ e
      (NetNS.chain_mem_prev _ _ e (NetNS.chain_mem_prev _ _ e
        (NetNS.chain_mem_prev _ _ e (NetNS.chain_mem_next _ _ e hc1 he))))), hp⟩
  · intro v hv
    obtain ⟨e, he, hp⟩ := NetNS.vethStage_complete db _ hg3 v hv
    exact ⟨e, NetNS.chain_mem_prev _ _ e (NetNS.chain_mem_prev _ _ e
      (NetNS.chain_mem_prev _ _ e (NetNS.chain_mem_prev _ _ e
        (NetNS.chain_mem_next _ _ e hc2 he)))), hp⟩
  · intro a ha
    obtain ⟨e, he, hp⟩ := NetNS.addrStage_complete db _ hg4 a ha
    exact ⟨e, NetNS.chain_mem_prev _ _ e (NetNS.chain_mem_prev _ _ e
      (NetNS.chain_mem_prev _ _ e (NetNS.chain_mem_next _ _ e hc3 he))), hp⟩
  · intro r hr
    obtain ⟨e, he, hp⟩ := NetNS.routeStage_complete db _ hg5 r hr
    exact ⟨e, NetNS.chain_mem_prev _ _ e (NetNS.chain_mem_prev _ _ e
      (NetNS.chain_mem_next _ _ e hc4 he)), hp⟩
  · intro p hp'
    obtain ⟨e, he, hp⟩ := NetNS.portStage_complete db _ hg6 p hp'
    exact ⟨e, NetNS.chain_mem_prev _ _ e (NetNS.chain_mem_next _ _ e hc5 he), hp⟩
  · intro t ht
    obtain ⟨e, he, hp⟩ := NetNS.tunnelStage_complete db _ hg7 t ht
    exact ⟨e, NetNS.chain_mem_next _ _ e hc6 he, hp⟩

namespace NetNS

/-- A graph with one record of every kind on which restore completes. -/
def c6Db : Database :=
  ⟨[⟨1, "ns1", 0, ""⟩], [⟨1, "v0", "v1", none, none⟩],
   [⟨1, "eth0", none, "10.0.0.1/24"⟩], [⟨1, none, "default", "10.0.0.254", ""⟩],
   [⟨1, "br0", none⟩], [⟨1, 1, "v0"⟩],
   [⟨1, "gre1", "10.0.0.1", "10.0.0.2", 0, 0, none⟩]⟩

end NetNS

/-- C6 (witness): on `c6Db` the run completes, its log is stage-monotone,
and the first-stage and last-stage records both got their events. -/
theorem restore_fixed_stage_order_witness :
    (((NetNS.restore_all NetNS.c6Db NetNS.sys0).2.1.map
        (fun e => NetNS.stageIdx e.stage)).Sorted (· ≤ ·)) ∧
    (∃ e ∈ (NetNS.restore_all NetNS.c6Db NetNS.sys0).2.1,
        e.stage = NetNS.Stage.namespaces ∧ e.name = "ns1") ∧
    (∃ e ∈ (NetNS.restore_all NetNS.c6Db NetNS.sys0).2.1,
        e.stage = NetNS.Stage.tunnels ∧ e.name = "gre1") := by
  have h := restore_fixed_stage_order NetNS.c6Db NetNS.sys0
  refine ⟨h.1, ?_, ?_⟩
  · exact (h.2 (by decide)).1 ⟨1, "ns1", 0, ""⟩ (by decide)
  · exact (h.2 (by decide)).2.2.2.2.2.2 ⟨1, "gre1", "10.0.0.1", "10.0.0.2", 0, 0, none⟩
      (by decide)
